import Mathlib

/-!
Shallow embedding of the vorthain-nexus event hub (src/index.js).

The hub is created by `createNexusHub(eventNames)` and exposes
`on`, `once`, `off`, `emit`, `clear`, `listenerCount`, `listeners`,
`eventNames`, `setDebug`, `setLogger`.  Per-channel listener registries are
plain JavaScript objects keyed by listener id, so enumeration of a registry
(`Object.values`) follows the JavaScript own-property order: keys that are
canonical array indices come first in ascending numeric order, then the
remaining string keys in insertion order.  We model each JS object as an
association list in insertion order together with an explicit enumeration
function `jsValues` implementing that ordering rule.

Callbacks are modelled syntactically: a callback is a list of actions it
performs when invoked (record its invocation, throw, or call hub operations,
including reentrant `emit`).  The `once` wrapper of the source
(`(data) => { callback(data); hub.off(eventName, id); }`) is a dedicated
constructor.  Execution is interpreted with explicit fuel; running out of
fuel yields the distinguished error `Err.outOfFuel`, which is never caught
by the try/catch of `emit` (in JavaScript it corresponds to
non-termination, not to a catchable exception).

Observable output (listener invocations, logger calls, `console.error`
diagnostics) is modelled as a trace of events carried in the hub state.
Logger functions are identified by a numeric tag (tag 0 is the default
timestamped console logger); invoking the active logger appends a
`logCall` event carrying that tag.
-/

set_option autoImplicit false

namespace Nexus

/-- JavaScript values as far as the hub inspects them: `undefined`, `null`,
booleans, numbers, strings and arrays.  Payloads are passed through
opaquely, so this grammar is enough for every argument position. -/
inductive Val : Type where
  | undef : Val
  | vnull : Val
  | vbool : Bool → Val
  | vnum : Int → Val
  | vstr : String → Val
  | varr : List Val → Val

/-- True exactly for string values (JavaScript `typeof x === "string"`). -/
def Val.isStr : Val → Bool
  | .vstr _ => true
  | _ => false

mutual
/-- Boolean equality on values (JavaScript SameValueZero, restricted to the
value grammar above). -/
def valBeq : Val → Val → Bool
  | .undef, .undef => true
  | .vnull, .vnull => true
  | .vbool a, .vbool b => a == b
  | .vnum a, .vnum b => a == b
  | .vstr a, .vstr b => a == b
  | .varr xs, .varr ys => valListBeq xs ys
  | _, _ => false

/-- Pointwise boolean equality on lists of values. -/
def valListBeq : List Val → List Val → Bool
  | [], [] => true
  | x :: xs, y :: ys => valBeq x y && valListBeq xs ys
  | _, _ => false
end

mutual
theorem valBeq_eq : (a b : Val) → valBeq a b = true → a = b
  | .undef, b, h => by cases b <;> simp_all [valBeq]
  | .vnull, b, h => by cases b <;> simp_all [valBeq]
  | .vbool x, b, h => by cases b <;> simp_all [valBeq]
  | .vnum x, b, h => by cases b <;> simp_all [valBeq]
  | .vstr x, b, h => by cases b <;> simp_all [valBeq]
  | .varr xs, .undef, h => by simp [valBeq] at h
  | .varr xs, .vnull, h => by simp [valBeq] at h
  | .varr xs, .vbool _, h => by simp [valBeq] at h
  | .varr xs, .vnum _, h => by simp [valBeq] at h
  | .varr xs, .vstr _, h => by simp [valBeq] at h
  | .varr xs, .varr ys, h => by
      rw [valListBeq_eq xs ys (by simpa [valBeq] using h)]

theorem valListBeq_eq : (xs ys : List Val) → valListBeq xs ys = true → xs = ys
  | [], [], _ => rfl
  | [], _ :: _, h => by simp [valListBeq] at h
  | _ :: _, [], h => by simp [valListBeq] at h
  | x :: xs, y :: ys, h => by
      have h2 : valBeq x y = true ∧ valListBeq xs ys = true := by
        simpa [valListBeq, Bool.and_eq_true] using h
      rw [valBeq_eq x y h2.1, valListBeq_eq xs ys h2.2]
end

mutual
theorem valBeq_refl : (a : Val) → valBeq a a = true
  | .undef => rfl
  | .vnull => rfl
  | .vbool x => by simp [valBeq]
  | .vnum x => by simp [valBeq]
  | .vstr x => by simp [valBeq]
  | .varr xs => by simpa [valBeq] using valListBeq_refl xs

theorem valListBeq_refl : (xs : List Val) → valListBeq xs xs = true
  | [] => rfl
  | x :: xs => by
      simp only [valListBeq, Bool.and_eq_true]
      exact ⟨valBeq_refl x, valListBeq_refl xs⟩
end

instance : DecidableEq Val := fun a b =>
  decidable_of_iff (valBeq a b = true)
    ⟨valBeq_eq a b, fun h => h ▸ valBeq_refl a⟩

/-- Errors raised by hub operations, mapped to the error taxonomy of the
specification: `invalidArgument` for the TypeError/Error validation
failures, `unknownChannel` for the "is not registered" errors, `userErr`
for a value thrown by a listener callback, and `outOfFuel` for exhaustion
of the interpretation fuel (divergence in the JavaScript original). -/
inductive Err : Type where
  | invalidArgument : String → Err
  | unknownChannel : Val → Err
  | userErr : Val → Err
  | outOfFuel : Err
deriving DecidableEq

/-- Observable events, in the order they happen: a listener callback
recording its invocation with the payload it received, an invocation of the
active logger (identified by its tag) with channel and payload, the
`console.error` diagnostic naming the channel and carrying a caught
listener error, and the debug-mode `console.error` message carrying the
count of errors of one emission. -/
inductive Ev : Type where
  | invoked : Nat → Val → Ev
  | logCall : Nat → String → Val → Ev
  | consoleError : String → Err → Ev
  | consoleErrorCount : String → Nat → Ev
deriving DecidableEq

mutual
/-- A listener callback: either a plain function whose body is a list of
actions, or the wrapper built by `once`, which closes over the channel
name and the id and, when invoked, runs the original callback and then
calls `hub.off(eventName, id)`. -/
inductive Cb : Type where
  | base : List Act → Cb
  | wrapper : String → Val → Cb → Cb

/-- One action of a callback body: record the invocation (with a tag
identifying the callback), throw a value, or call a hub operation.  Hub
calls from inside a callback model listeners that mutate the registry or
reenter `emit` during a dispatch pass. -/
inductive Act : Type where
  | record : Nat → Act
  | throwErr : Val → Act
  | doOn : Val → Val → Cb → Act
  | doOnce : Val → Val → Cb → Act
  | doOff : Val → Val → Act
  | doClear : Val → Act
  | doEmit : Val → Val → Act
end

/-- Argument in a callback position: an actual function or a non-function
value (JavaScript `typeof x !== "function"`). -/
inductive FnV : Type where
  | fn : Cb → FnV
  | nf : Val → FnV

/-- Argument to `setLogger`: a logger function identified by its tag, or a
non-function value. -/
inductive LoggerV : Type where
  | fn : Nat → LoggerV
  | nf : Val → LoggerV

/-- Hub state: the declared channel list (`eventNames`), the `callbacks`
object mapping each channel to its listener object (an association list in
insertion order), the debug configuration (`debugAll`, `debugFilter`), the
tag of the active logger (0 is the default logger), and the trace of
observable events. -/
structure Hub : Type where
  channels : List String
  registry : List (String × List (String × Cb))
  debugAll : Bool
  debugFilter : Option (List Val)
  loggerTag : Nat
  trace : List Ev

/-- Append one observable event to the trace. -/
def pushEv (h : Hub) (e : Ev) : Hub :=
  { h with trace := h.trace ++ [e] }

/-! ### JavaScript objects as association lists -/

section JsObj

variable {α : Type}

/-- Property lookup returning `none` for an absent key. -/
def jsLookup : List (String × α) → String → Option α
  | [], _ => none
  | e :: m, k => if e.1 == k then some e.2 else jsLookup m k

/-- Property read `m[k]` with a default for an absent key. -/
def jsGet (m : List (String × α)) (k : String) (dflt : α) : α :=
  match jsLookup m k with
  | some v => v
  | none => dflt

/-- Property write `m[k] = v`: overwriting an existing key keeps its
position, a new key is appended (JavaScript insertion order). -/
def jsSetO : List (String × α) → String → α → List (String × α)
  | [], k, v => [(k, v)]
  | e :: m, k, v => if e.1 == k then (k, v) :: m else e :: jsSetO m k v

/-- Property delete `delete m[k]`. -/
def jsDeleteO : List (String × α) → String → List (String × α)
  | [], _ => []
  | e :: m, k => if e.1 == k then jsDeleteO m k else e :: jsDeleteO m k

/-- `s.trim() === ""` of JavaScript: the string is empty or consists of
whitespace only. -/
def trimEmpty (s : String) : Bool :=
  s.data.all (fun c => c.isWhitespace)

/-- Value of a non-empty digit string. -/
def digitsToNat (l : List Char) : Nat :=
  l.foldl (fun n c => n * 10 + (c.toNat - 48)) 0

/-- A string is an array index when it is the canonical decimal
representation (digits only, no leading zero except for "0" itself) of a
natural number below 2^32 - 1. -/
def isArrayIndex (s : String) : Option Nat :=
  match s.data with
  | [] => none
  | c :: cs =>
      if (c :: cs).all Char.isDigit ∧ (c = '0' → cs = []) then
        if digitsToNat (c :: cs) < 4294967295 then some (digitsToNat (c :: cs)) else none
      else none

/-- Insert into a list sorted by the numeric key. -/
def insertSorted (x : Nat × (String × α)) : List (Nat × (String × α)) → List (Nat × (String × α))
  | [] => [x]
  | y :: ys => if x.1 < y.1 then x :: y :: ys else y :: insertSorted x ys

/-- Sort by the numeric key (insertion sort; keys are distinct within one
object, so stability is irrelevant). -/
def sortByIdx (l : List (Nat × (String × α))) : List (Nat × (String × α)) :=
  l.foldr insertSorted []

/-- Own-property enumeration order of a JavaScript object: entries whose
key is an array index first, in ascending numeric order, then the
remaining entries in insertion order. -/
def jsOrderedEntries (m : List (String × α)) : List (String × α) :=
  (sortByIdx (m.filterMap (fun e => (isArrayIndex e.1).map (fun n => (n, e))))).map (fun p => p.2)
    ++ m.filter (fun e => (isArrayIndex e.1).isNone)

/-- `Object.values m` in JavaScript own-property order. -/
def jsValues (m : List (String × α)) : List α :=
  (jsOrderedEntries m).map (fun e => e.2)

end JsObj

/-! ### Hub operations (translated from src/index.js) -/

/-- `validEvents.has(x)`: membership of a value in the declared channel
set.  The set contains only strings, so membership holds exactly for a
string value whose text is a declared channel name. -/
def validHas (h : Hub) (x : Val) : Bool :=
  match x with
  | .vstr s => h.channels.contains s
  | _ => false

/-- The debug test of `emit`:
`debugAll || (debugFilter && debugFilter.has(eventName))`. -/
def debugOn (h : Hub) (ch : Val) : Bool :=
  h.debugAll ||
    (match h.debugFilter with
     | some xs => xs.contains ch
     | none => false)

/-- `createNexusHub(eventNames)`: validates that the input is an array,
non-empty, duplicate-free (a `Set` over the raw elements, checked before
the per-element string check) and that every element is a string; on
success every channel starts with an empty listener object, debug is
disabled and the default logger (tag 0) is installed. -/
def createNexusHub (v : Val) : Except Err Hub :=
  match v with
  | .varr xs =>
      if xs.length = 0 then
        .error (.invalidArgument "At least one event name must be provided")
      else if xs.dedup.length ≠ xs.length then
        .error (.invalidArgument "Duplicate event names are not allowed")
      else
        match xs.find? (fun x => !x.isStr) with
        | some _ => .error (.invalidArgument "Event name must be a string")
        | none =>
            let names := xs.filterMap (fun x => match x with | .vstr s => some s | _ => none)
            .ok { channels := names
                  registry := names.map (fun c => (c, ([] : List (String × Cb))))
                  debugAll := false
                  debugFilter := none
                  loggerTag := 0
                  trace := [] }
  | _ => .error (.invalidArgument "Event names must be an array")

/-- `hub.on(eventName, id, callback)`: validates the channel, then the id
(a string, non-empty after trimming), then the callback, and stores the
callback under `callbacks[eventName][id]`. -/
def hubOn (h : Hub) (ch id : Val) (cbv : FnV) : Hub × Except Err Unit :=
  match ch with
  | .vstr s =>
      if h.channels.contains s then
        match id with
        | .vstr i =>
            if trimEmpty i then
              (h, .error (.invalidArgument "Listener ID must be a non-empty string"))
            else
              match cbv with
              | .fn cb =>
                  ({ h with registry := jsSetO h.registry s (jsSetO (jsGet h.registry s []) i cb) },
                   .ok ())
              | .nf _ => (h, .error (.invalidArgument "Callback must be a function"))
        | _ => (h, .error (.invalidArgument "Listener ID must be a non-empty string"))
      else (h, .error (.unknownChannel ch))
  | _ => (h, .error (.unknownChannel ch))

/-- `hub.once(eventName, id, callback)`: validates the channel and the
callback, builds the wrapper closing over `(eventName, id, callback)` and
registers it through `on` (which validates the id). -/
def hubOnce (h : Hub) (ch id : Val) (cbv : FnV) : Hub × Except Err Unit :=
  match ch with
  | .vstr s =>
      if h.channels.contains s then
        match cbv with
        | .fn cb => hubOn h ch id (.fn (Cb.wrapper s id cb))
        | .nf _ => (h, .error (.invalidArgument "Callback must be a function"))
      else (h, .error (.unknownChannel ch))
  | _ => (h, .error (.unknownChannel ch))

/-- `hub.off(eventName, id)`: validates the channel; with `id` undefined it
replaces the listener object of the channel by an empty one, otherwise it
requires a string id and deletes that property (a silent no-op when the id
is absent). -/
def hubOff (h : Hub) (ch id : Val) : Hub × Except Err Unit :=
  match ch with
  | .vstr s =>
      if h.channels.contains s then
        match id with
        | .undef =>
            ({ h with registry := jsSetO h.registry s [] }, .ok ())
        | .vstr i =>
            ({ h with registry := jsSetO h.registry s (jsDeleteO (jsGet h.registry s []) i) },
             .ok ())
        | _ => (h, .error (.invalidArgument "Listener ID must be a string"))
      else (h, .error (.unknownChannel ch))
  | _ => (h, .error (.unknownChannel ch))

/-- `hub.clear(eventName)`: with a channel, validates it and resets its
listener object; with `eventName` undefined resets every declared channel. -/
def hubClear (h : Hub) (ch : Val) : Hub × Except Err Unit :=
  match ch with
  | .undef =>
      ({ h with registry := h.channels.foldl (fun reg c => jsSetO reg c []) h.registry }, .ok ())
  | .vstr s =>
      if h.channels.contains s then
        ({ h with registry := jsSetO h.registry s [] }, .ok ())
      else (h, .error (.unknownChannel ch))
  | _ => (h, .error (.unknownChannel ch))

/-- `hub.listenerCount(eventName)`: with a channel, validates it and
returns the number of keys of its listener object; with `eventName`
undefined returns the sum over the declared channels. -/
def hubListenerCount (h : Hub) (ch : Val) : Except Err Nat :=
  match ch with
  | .undef =>
      .ok (h.channels.foldl (fun t c => t + (jsGet h.registry c []).length) 0)
  | .vstr s =>
      if h.channels.contains s then
        .ok (jsGet h.registry s []).length
      else .error (.unknownChannel ch)
  | _ => .error (.unknownChannel ch)

/-- `hub.listeners(eventName)`: with a channel, validates it and returns
`Object.values` of its listener object; with `eventName` undefined returns
the concatenation over the declared channels in declaration order. -/
def hubListeners (h : Hub) (ch : Val) : Except Err (List Cb) :=
  match ch with
  | .undef =>
      .ok (h.channels.foldl (fun acc c => acc ++ jsValues (jsGet h.registry c [])) [])
  | .vstr s =>
      if h.channels.contains s then
        .ok (jsValues (jsGet h.registry s []))
      else .error (.unknownChannel ch)
  | _ => .error (.unknownChannel ch)

/-- `hub.eventNames()`: a copy of the declared channel list. -/
def hubEventNames (h : Hub) : List String :=
  h.channels

/-- `hub.setDebug(enabled)`: `true` enables the global-all mode, `false`
disables debugging, an array is validated in full (every element must be a
declared channel) and then installed as the filter set; anything else is
an invalid argument. -/
def hubSetDebug (h : Hub) (v : Val) : Hub × Except Err Unit :=
  match v with
  | .vbool true => ({ h with debugAll := true, debugFilter := none }, .ok ())
  | .vbool false => ({ h with debugAll := false, debugFilter := none }, .ok ())
  | .varr xs =>
      match xs.find? (fun x => !validHas h x) with
      | some bad => (h, .error (.unknownChannel bad))
      | none => ({ h with debugAll := false, debugFilter := some xs }, .ok ())
  | _ => (h, .error (.invalidArgument "Debug must be boolean or array of event names"))

/-- `hub.setLogger(fn)`: requires a function and installs it as the active
logger. -/
def hubSetLogger (h : Hub) (v : LoggerV) : Hub × Except Err Unit :=
  match v with
  | .fn tag => ({ h with loggerTag := tag }, .ok ())
  | .nf _ => (h, .error (.invalidArgument "Logger must be a function"))

/-! ### Execution of callbacks and emission -/

/-- Result of the dispatch loop of `emit`: the hub state after the loop,
the accumulated `errors` array, the list of snapshot callbacks the loop
invoked (an instrumentation field: the source loop has no such value, it
is recorded here to state snapshot-dispatch properties), and whether the
loop completed without running out of interpretation fuel. -/
structure DRes : Type where
  hub : Hub
  errs : List Err
  processed : List Cb
  fuelOk : Bool

/-- Result of `emit`: hub state, return value (or error), and the
instrumentation list of snapshot callbacks the dispatch loop invoked. -/
structure EmitRes : Type where
  hub : Hub
  ret : Except Err Bool
  processed : List Cb

/-- A pending piece of execution: invoking one callback with a payload,
running the remaining actions of a callback body, running the
`listeners.forEach` loop of `emit` over the remaining snapshot (the string
is the channel name used in diagnostics), or a call to `hub.emit`. -/
inductive Job : Type where
  | jCb : Cb → Val → Job
  | jActs : List Act → Val → Job
  | jDispatch : List Cb → Val → String → Job
  | jEmit : Val → Val → Job

/-- Result of interpreting a `Job`: the hub state afterwards, the error
propagating out of the job (`Err.outOfFuel` for fuel exhaustion; for a
dispatch job the only propagating error is `Err.outOfFuel`, every real
error is caught by the try/catch), the return value of `emit` (only
meaningful for `jEmit`), the `errors` array of the dispatch loop and the
instrumentation list of snapshot callbacks the loop invoked (only
meaningful for `jDispatch`/`jEmit`). -/
structure JRes : Type where
  hub : Hub
  err : Option Err
  ret : Bool
  errs : List Err
  processed : List Cb

/-- The interpreter, by structural recursion on the fuel.

* `jCb` with a `base` callback runs the body; with a `once` wrapper it
  runs the original callback and then, as a second statement, calls
  `hub.off(eventName, id)` — so a thrown error skips the self-removal.
* `jActs` runs a callback body one action at a time; an error aborts the
  remaining actions and propagates.
* `jDispatch` is the `listeners.forEach` loop of `emit`: each snapshot
  callback is invoked inside a try/catch; a caught error is appended to
  the `errors` array and reported via `console.error` naming the channel,
  and the loop continues.  Fuel exhaustion is not catchable and aborts.
* `jEmit` validates the channel, snapshots
  `Object.values(callbacks[eventName])`, invokes the active logger when
  debug is enabled for the channel, dispatches to the snapshot, then —
  when errors were caught and debug is enabled for the channel at that
  point — reports the error count, and returns whether the snapshot was
  non-empty. -/
def interp : Nat → Hub → Job → JRes
  | 0, h, _ => ⟨h, some .outOfFuel, false, [], []⟩
  | fuel + 1, h, .jCb (.base acts) p => interp fuel h (.jActs acts p)
  | fuel + 1, h, .jCb (.wrapper ch id orig) p =>
      let r := interp fuel h (.jCb orig p)
      match r.err with
      | none =>
          let or := hubOff r.hub (.vstr ch) id
          ⟨or.1, match or.2 with | .ok _ => none | .error e => some e, false, [], []⟩
      | some e => ⟨r.hub, some e, false, [], []⟩
  | _ + 1, h, .jActs [] _ => ⟨h, none, false, [], []⟩
  | fuel + 1, h, .jActs (a :: rest) p =>
      let step : Hub × Except Err Unit :=
        match a with
        | .record tag => (pushEv h (.invoked tag p), .ok ())
        | .throwErr v => (h, .error (.userErr v))
        | .doOn ch id cb => hubOn h ch id (.fn cb)
        | .doOnce ch id cb => hubOnce h ch id (.fn cb)
        | .doOff ch id => hubOff h ch id
        | .doClear ch => hubClear h ch
        | .doEmit ch q =>
            let r := interp fuel h (.jEmit ch q)
            (r.hub, match r.err with | some e => .error e | none => .ok ())
      match step with
      | (h1, .ok _) => interp fuel h1 (.jActs rest p)
      | (h1, .error e) => ⟨h1, some e, false, [], []⟩
  | _ + 1, h, .jDispatch [] _ _ => ⟨h, none, false, [], []⟩
  | fuel + 1, h, .jDispatch (c :: rest) p s =>
      let r := interp fuel h (.jCb c p)
      match r.err with
      | none =>
          let d := interp fuel r.hub (.jDispatch rest p s)
          ⟨d.hub, d.err, false, d.errs, c :: d.processed⟩
      | some .outOfFuel => ⟨r.hub, some .outOfFuel, false, [], [c]⟩
      | some e =>
          let d := interp fuel (pushEv r.hub (.consoleError s e)) (.jDispatch rest p s)
          ⟨d.hub, d.err, false, e :: d.errs, c :: d.processed⟩
  | fuel + 1, h, .jEmit ch p =>
      match ch with
      | .vstr s =>
          if h.channels.contains s then
            let snap := jsValues (jsGet h.registry s [])
            let h1 := if debugOn h ch then pushEv h (.logCall h.loggerTag s p) else h
            let d := interp fuel h1 (.jDispatch snap p s)
            match d.err with
            | some e => ⟨d.hub, some e, false, d.errs, d.processed⟩
            | none =>
                let h2 :=
                  if decide (0 < d.errs.length) && debugOn d.hub ch then
                    pushEv d.hub (.consoleErrorCount s d.errs.length)
                  else d.hub
                ⟨h2, none, decide (0 < snap.length), d.errs, d.processed⟩
          else ⟨h, some (.unknownChannel ch), false, [], []⟩
      | _ => ⟨h, some (.unknownChannel ch), false, [], []⟩

/-- Invoke one callback value with a payload (entry point). -/
def runCb (fuel : Nat) (h : Hub) (cb : Cb) (p : Val) : Hub × Except Err Unit :=
  let r := interp fuel h (.jCb cb p)
  (r.hub, match r.err with | some e => .error e | none => .ok ())

/-- The dispatch loop of `emit` (entry point). -/
def dispatchList (fuel : Nat) (h : Hub) (cbs : List Cb) (p : Val) (s : String) : DRes :=
  let r := interp fuel h (.jDispatch cbs p s)
  ⟨r.hub, r.errs, r.processed, r.err.isNone⟩

/-- `hub.emit` with the instrumentation field (entry point). -/
def emitWithGhost (fuel : Nat) (h : Hub) (ch p : Val) : EmitRes :=
  let r := interp fuel h (.jEmit ch p)
  ⟨r.hub, match r.err with | some e => .error e | none => .ok r.ret, r.processed⟩

/-- `hub.emit` as seen by callers: hub state and return value. -/
def emitF (fuel : Nat) (h : Hub) (ch p : Val) : Hub × Except Err Bool :=
  let r := emitWithGhost fuel h ch p
  (r.hub, r.ret)

/-! ### Lemmas about the JS object model -/

section JsLemmas

variable {α : Type}

theorem jsLookup_jsSetO_self (m : List (String × α)) (k : String) (v : α) :
    jsLookup (jsSetO m k v) k = some v := by
  induction m with
  | nil => simp [jsSetO, jsLookup]
  | cons e m ih =>
      by_cases hek : e.1 = k
      · simp [jsSetO, jsLookup, beq_iff_eq, hek]
      · simp [jsSetO, jsLookup, beq_iff_eq, hek, ih]

theorem jsLookup_jsSetO_ne (m : List (String × α)) (k k' : String) (v : α) (hk : k' ≠ k) :
    jsLookup (jsSetO m k v) k' = jsLookup m k' := by
  have hk2 : ¬ k = k' := Ne.symm hk
  induction m with
  | nil => simp [jsSetO, jsLookup, beq_iff_eq, hk2]
  | cons e m ih =>
      by_cases hek : e.1 = k
      · simp [jsSetO, jsLookup, beq_iff_eq, hek, hk2]
      · by_cases hek' : e.1 = k'
        · simp [jsSetO, jsLookup, beq_iff_eq, hek, hek', hk]
        · simp [jsSetO, jsLookup, beq_iff_eq, hek, hek', ih]

theorem jsGet_jsSetO_self (m : List (String × α)) (k : String) (v : α) (d : α) :
    jsGet (jsSetO m k v) k d = v := by
  simp [jsGet, jsLookup_jsSetO_self]

theorem jsGet_jsSetO_ne (m : List (String × α)) (k k' : String) (v : α) (d : α) (hk : k' ≠ k) :
    jsGet (jsSetO m k v) k' d = jsGet m k' d := by
  simp [jsGet, jsLookup_jsSetO_ne m k k' v hk]

theorem jsLookup_jsDeleteO_self (m : List (String × α)) (k : String) :
    jsLookup (jsDeleteO m k) k = none := by
  induction m with
  | nil => simp [jsDeleteO, jsLookup]
  | cons e m ih =>
      by_cases hek : e.1 = k
      · simp [jsDeleteO, beq_iff_eq, hek, ih]
      · simp [jsDeleteO, jsLookup, beq_iff_eq, hek, ih]

theorem jsLookup_jsDeleteO_ne (m : List (String × α)) (k k' : String) (hk : k' ≠ k) :
    jsLookup (jsDeleteO m k) k' = jsLookup m k' := by
  have hk2 : ¬ k = k' := Ne.symm hk
  induction m with
  | nil => simp [jsDeleteO]
  | cons e m ih =>
      by_cases hek : e.1 = k
      · simp [jsDeleteO, jsLookup, beq_iff_eq, hek, hk2, ih]
      · by_cases hek' : e.1 = k'
        · simp [jsDeleteO, jsLookup, beq_iff_eq, hek, hek', hk]
        · simp [jsDeleteO, jsLookup, beq_iff_eq, hek, hek', ih]

theorem jsDeleteO_absent (m : List (String × α)) (k : String) (hm : jsLookup m k = none) :
    jsDeleteO m k = m := by
  induction m with
  | nil => simp [jsDeleteO]
  | cons e m ih =>
      by_cases hek : e.1 = k
      · simp [jsLookup, beq_iff_eq, hek] at hm
      · simp [jsLookup, beq_iff_eq, hek] at hm
        simp [jsDeleteO, beq_iff_eq, hek, ih hm]

theorem insertSorted_length (x : Nat × (String × α)) (l : List (Nat × (String × α))) :
    (insertSorted x l).length = l.length + 1 := by
  induction l with
  | nil => rfl
  | cons y l ih =>
      by_cases hxy : x.1 < y.1
      · simp [insertSorted, hxy]
      · simp [insertSorted, hxy, ih]

theorem sortByIdx_length (l : List (Nat × (String × α))) :
    (sortByIdx l).length = l.length := by
  induction l with
  | nil => rfl
  | cons x l ih => simp [sortByIdx, List.foldr_cons, insertSorted_length]
                   simpa [sortByIdx] using ih

theorem idx_split_length (m : List (String × α)) :
    (m.filterMap (fun e => (isArrayIndex e.1).map (fun n => (n, e)))).length
      + (m.filter (fun e => (isArrayIndex e.1).isNone)).length = m.length := by
  induction m with
  | nil => rfl
  | cons e m ih =>
      cases hie : isArrayIndex e.1 with
      | none => simp [hie]; omega
      | some n => simp [hie]; omega

theorem jsValues_length (m : List (String × α)) :
    (jsValues m).length = m.length := by
  simp [jsValues, jsOrderedEntries, sortByIdx_length]
  have := idx_split_length m
  omega

theorem filterMapIdx_nil (m : List (String × α)) (hm : ∀ e ∈ m, isArrayIndex e.1 = none) :
    m.filterMap (fun e => (isArrayIndex e.1).map (fun n => (n, e))) = [] := by
  simp
  intro a b hab
  exact hm (a, b) hab

theorem filterIdx_self (m : List (String × α)) (hm : ∀ e ∈ m, isArrayIndex e.1 = none) :
    m.filter (fun e => (isArrayIndex e.1).isNone) = m := by
  rw [List.filter_eq_self]
  intro e he
  simp [hm e he]

/-- When no key of the object is an array index, `Object.values` is
exactly the values in insertion order. -/
theorem jsValues_no_index (m : List (String × α))
    (hm : ∀ e ∈ m, isArrayIndex e.1 = none) :
    jsValues m = m.map Prod.snd := by
  simp [jsValues, jsOrderedEntries, filterMapIdx_nil m hm, filterIdx_self m hm, sortByIdx]

theorem jsValues_singleton (i : String) (c : α) : jsValues [(i, c)] = [c] := by
  cases hie : isArrayIndex i with
  | none => simp [jsValues, jsOrderedEntries, sortByIdx, hie]
  | some n => simp [jsValues, jsOrderedEntries, sortByIdx, insertSorted, hie]

end JsLemmas

/-! ### Simple callbacks: recorders and throwers -/

/-- A simple callback is either a recorder (a pure listener that records
its invocation under a tag) or a thrower (a listener that immediately
throws a value). -/
def sCb : Sum Nat Val → Cb
  | .inl t => .base [.record t]
  | .inr e => .base [.throwErr e]

/-- The single observable event the dispatch loop produces for a simple
callback: the recorded invocation, or the `console.error` diagnostic
produced by the try/catch of `emit` for the thrown value. -/
def sEv (s : String) (p : Val) : Sum Nat Val → Ev
  | .inl t => .invoked t p
  | .inr e => .consoleError s (.userErr e)

/-- The contribution of a simple callback to the `errors` array of
`emit`. -/
def sErr : Sum Nat Val → Option Err
  | .inl _ => none
  | .inr e => some (.userErr e)

theorem interp_cb_rec (g : Nat) (h : Hub) (t : Nat) (p : Val) :
    interp (g + 3) h (.jCb (sCb (Sum.inl t)) p)
      = ⟨pushEv h (.invoked t p), none, false, [], []⟩ := rfl

theorem interp_cb_thr (g : Nat) (h : Hub) (e : Val) (p : Val) :
    interp (g + 3) h (.jCb (sCb (Sum.inr e)) p)
      = ⟨h, some (.userErr e), false, [], []⟩ := rfl

/-- Dispatch over a snapshot of simple callbacks: every callback of the
snapshot is invoked exactly once, in snapshot order; recorders append
their invocation event, throwers are caught and reported, and the
`errors` array collects the thrown values in order. -/
theorem dispatch_simple (l : List (Sum Nat Val)) :
    ∀ (fuel : Nat) (h : Hub) (p : Val) (s : String), 4 * l.length + 1 ≤ fuel →
    interp fuel h (.jDispatch (l.map sCb) p s) =
      ⟨{ h with trace := h.trace ++ l.map (sEv s p) }, none, false,
        l.filterMap sErr, l.map sCb⟩ := by
  induction l with
  | nil =>
      intro fuel h p s hf
      obtain ⟨g, rfl⟩ : ∃ g, fuel = g + 1 := ⟨fuel - 1, by omega⟩
      simp [interp]
  | cons x l ih =>
      intro fuel h p s hf
      rw [List.length_cons] at hf
      obtain ⟨g, rfl⟩ : ∃ g, fuel = (g + 3) + 1 := ⟨fuel - 4, by omega⟩
      have hg : 4 * l.length + 1 ≤ g + 3 := by omega
      cases x with
      | inl t =>
          rw [List.map_cons]
          rw [show interp ((g + 3) + 1) h (.jDispatch (sCb (Sum.inl t) :: l.map sCb) p s)
              = (let r := interp (g + 3) h (.jCb (sCb (Sum.inl t)) p)
                 match r.err with
                 | none =>
                     let d := interp (g + 3) r.hub (.jDispatch (l.map sCb) p s)
                     ⟨d.hub, d.err, false, d.errs, sCb (Sum.inl t) :: d.processed⟩
                 | some .outOfFuel => ⟨r.hub, some .outOfFuel, false, [], [sCb (Sum.inl t)]⟩
                 | some e =>
                     let d := interp (g + 3) (pushEv r.hub (.consoleError s e))
                        (.jDispatch (l.map sCb) p s)
                     ⟨d.hub, d.err, false, e :: d.errs, sCb (Sum.inl t) :: d.processed⟩
                 : JRes) from rfl]
          rw [interp_cb_rec]
          simp only
          rw [ih (g + 3) (pushEv h (.invoked t p)) p s hg]
          simp [pushEv, sEv, sErr]
      | inr e =>
          rw [List.map_cons]
          rw [show interp ((g + 3) + 1) h (.jDispatch (sCb (Sum.inr e) :: l.map sCb) p s)
              = (let r := interp (g + 3) h (.jCb (sCb (Sum.inr e)) p)
                 match r.err with
                 | none =>
                     let d := interp (g + 3) r.hub (.jDispatch (l.map sCb) p s)
                     ⟨d.hub, d.err, false, d.errs, sCb (Sum.inr e) :: d.processed⟩
                 | some .outOfFuel => ⟨r.hub, some .outOfFuel, false, [], [sCb (Sum.inr e)]⟩
                 | some e' =>
                     let d := interp (g + 3) (pushEv r.hub (.consoleError s e'))
                        (.jDispatch (l.map sCb) p s)
                     ⟨d.hub, d.err, false, e' :: d.errs, sCb (Sum.inr e) :: d.processed⟩
                 : JRes) from rfl]
          rw [interp_cb_thr]
          simp only
          rw [ih (g + 3) (pushEv h (.consoleError s (.userErr e))) p s hg]
          simp [pushEv, sEv, sErr]

theorem debugOn_trace (h : Hub) (t : List Ev) (ch : Val) :
    debugOn { h with trace := t } ch = debugOn h ch := rfl

/-- Emission over a snapshot of simple callbacks: the logger fires first
when debug is enabled for the channel, then every snapshot callback is
invoked exactly once in snapshot order (recorders record, throwers are
caught and reported via `console.error`), then the error count is
reported when debug is enabled, and the call returns whether the snapshot
was non-empty. -/
theorem emit_simple (l : List (Sum Nat Val)) (fuel : Nat) (h : Hub) (s : String) (p : Val)
    (hch : h.channels.contains s = true)
    (hsnap : jsValues (jsGet h.registry s []) = l.map sCb)
    (hf : 4 * l.length + 2 ≤ fuel) :
    emitWithGhost fuel h (.vstr s) p =
      ⟨{ h with trace := h.trace
            ++ (if debugOn h (.vstr s) then [Ev.logCall h.loggerTag s p] else [])
            ++ l.map (sEv s p)
            ++ (if decide (0 < (l.filterMap sErr).length) && debugOn h (.vstr s) then
                  [Ev.consoleErrorCount s (l.filterMap sErr).length] else []) },
        .ok (decide (0 < l.length)), l.map sCb⟩ := by
  obtain ⟨g, rfl⟩ : ∃ g, fuel = g + 1 := ⟨fuel - 1, by omega⟩
  have hg : 4 * l.length + 1 ≤ g := by omega
  simp only [emitWithGhost, interp]
  rw [if_pos hch]
  simp only [hsnap]
  cases hdbg : debugOn h (.vstr s) with
  | true =>
      simp only [if_pos hdbg, if_true]
      rw [dispatch_simple l g (pushEv h (.logCall h.loggerTag s p)) p s hg]
      simp only [pushEv, debugOn_trace, hdbg, Bool.and_true]
      cases herr : decide (0 < (l.filterMap sErr).length) with
      | true => simp [pushEv, List.append_assoc]
      | false => simp [pushEv, List.append_assoc]
  | false =>
      rw [show (if false = true then pushEv h (Ev.logCall h.loggerTag s p) else h) = h
          from rfl]
      rw [dispatch_simple l g h p s hg]
      simp only [debugOn_trace, hdbg, Bool.and_false]
      simp [pushEv, List.append_assoc]

/-- The dispatch loop never lets a listener error propagate: its only
possible propagating error is fuel exhaustion. -/
theorem dispatch_err (fuel : Nat) : ∀ (h : Hub) (cbs : List Cb) (p : Val) (s : String),
    (interp fuel h (.jDispatch cbs p s)).err = none ∨
    (interp fuel h (.jDispatch cbs p s)).err = some .outOfFuel := by
  induction fuel with
  | zero => intro h cbs p s; right; rfl
  | succ fuel ih =>
      intro h cbs p s
      cases cbs with
      | nil => left; rfl
      | cons c rest =>
          simp only [interp]
          cases herr : (interp fuel h (.jCb c p)).err with
          | none => exact ih _ rest p s
          | some e =>
              cases e with
              | outOfFuel => right; rfl
              | invalidArgument m => exact ih _ rest p s
              | unknownChannel v => exact ih _ rest p s
              | userErr v => exact ih _ rest p s

/-- When the dispatch loop completes, the callbacks it invoked are exactly
the snapshot it was handed, whatever those callbacks did to the hub. -/
theorem dispatch_processed (fuel : Nat) : ∀ (h : Hub) (cbs : List Cb) (p : Val) (s : String),
    (interp fuel h (.jDispatch cbs p s)).err = none →
    (interp fuel h (.jDispatch cbs p s)).processed = cbs := by
  induction fuel with
  | zero => intro h cbs p s herr; cases herr
  | succ fuel ih =>
      intro h cbs p s herr
      cases cbs with
      | nil => rfl
      | cons c rest =>
          simp only [interp] at herr ⊢
          cases hcb : (interp fuel h (.jCb c p)).err with
          | none =>
              simp only [hcb] at herr ⊢
              rw [ih _ rest p s herr]
          | some e =>
              cases e with
              | outOfFuel => simp [hcb] at herr
              | invalidArgument m =>
                  simp only [hcb] at herr ⊢
                  rw [ih _ rest p s herr]
              | unknownChannel v =>
                  simp only [hcb] at herr ⊢
                  rw [ih _ rest p s herr]
              | userErr v =>
                  simp only [hcb] at herr ⊢
                  rw [ih _ rest p s herr]

section ClaimC3

/-- C3: `emit` dispatches over a point-in-time snapshot taken at call
time.  For every hub state — so for every behaviour of the registered
callbacks, including callbacks that call `on`, `off`, `once`, `clear` or
reenter `emit` during the pass — whenever the emission completes (does
not exhaust the interpretation fuel), the callbacks invoked by the
in-flight dispatch loop are exactly `Object.values` of the listener
object of the channel as it was when `emit` was entered; mutations of
the registry during the pass can therefore only affect later emissions. -/
theorem C3_snapshot_dispatch (fuel : Nat) (h : Hub) (s : String) (p : Val)
    (hch : h.channels.contains s = true)
    (hfuel : (emitWithGhost fuel h (.vstr s) p).ret ≠ .error .outOfFuel) :
    (emitWithGhost fuel h (.vstr s) p).processed = jsValues (jsGet h.registry s []) := by
  cases fuel with
  | zero => exact absurd rfl hfuel
  | succ fuel =>
      simp only [emitWithGhost, interp] at hfuel ⊢
      rw [if_pos hch] at hfuel ⊢
      cases herr : (interp fuel
          (if debugOn h (.vstr s) = true then pushEv h (.logCall h.loggerTag s p) else h)
          (.jDispatch (jsValues (jsGet h.registry s [])) p s)).err with
      | none =>
          simp only [herr]
          exact dispatch_processed fuel _ _ p s herr
      | some e =>
          rcases dispatch_err fuel
              (if debugOn h (.vstr s) = true then pushEv h (.logCall h.loggerTag s p) else h)
              (jsValues (jsGet h.registry s [])) p s with hd | hd
          · rw [herr] at hd; cases hd
          · rw [herr] at hd
            injection hd with hd'
            subst hd'
            simp only [herr] at hfuel
            exact absurd rfl hfuel

/-- Witness for C3: a hub whose first listener clears the channel and
reenters `emit`; the in-flight dispatch still invokes both snapshot
callbacks. -/
theorem C3_snapshot_dispatch_witness :
    (emitWithGhost 30 ⟨["a"], [("a", [("x", .base [.doClear (.vstr "a"), .doEmit (.vstr "a") .undef]),
        ("y", .base [.record 1])])], false, none, 0, []⟩ (.vstr "a") .undef).processed
      = jsValues (jsGet (⟨["a"], [("a", [("x", .base [.doClear (.vstr "a"), .doEmit (.vstr "a") .undef]),
        ("y", .base [.record 1])])], false, none, 0, []⟩ : Hub).registry "a" []) := by
  exact C3_snapshot_dispatch 30 _ "a" .undef (by rfl) (by intro hco; cases hco)

end ClaimC3

section ClaimC5

/-- C5: for a declared channel, `emit` returns `true` exactly when the
channel had at least one registered listener at snapshot time and `false`
otherwise, for every registry — so in particular the return value does
not depend on whether listeners throw during dispatch (the only other
possible outcome of the model is fuel exhaustion, which corresponds to
divergence of the JavaScript original, not to a return value). -/
theorem C5_emit_return (fuel : Nat) (h : Hub) (s : String) (p : Val)
    (hch : h.channels.contains s = true) :
    (emitF fuel h (.vstr s) p).2 = .error .outOfFuel ∨
    (emitF fuel h (.vstr s) p).2 = .ok (decide (0 < (jsGet h.registry s []).length)) := by
  cases fuel with
  | zero => left; rfl
  | succ fuel =>
      simp only [emitF, emitWithGhost, interp]
      rw [if_pos hch]
      cases herr : (interp fuel
          (if debugOn h (.vstr s) = true then pushEv h (.logCall h.loggerTag s p) else h)
          (.jDispatch (jsValues (jsGet h.registry s [])) p s)).err with
      | none =>
          right
          simp only [jsValues_length]
      | some e =>
          rcases dispatch_err fuel
              (if debugOn h (.vstr s) = true then pushEv h (.logCall h.loggerTag s p) else h)
              (jsValues (jsGet h.registry s [])) p s with hd | hd
          · rw [herr] at hd; cases hd
          · rw [herr] at hd
            injection hd with hd'
            subst hd'
            left; rfl

/-- Witness for C5: a channel whose single listener throws still yields
`emit = true`, and an empty channel yields `false`. -/
theorem C5_emit_return_witness :
    ((emitF 30 ⟨["a"], [("a", [("x", .base [.throwErr (.vstr "boom")])])], false, none, 0, []⟩
        (.vstr "a") .undef).2 = .error .outOfFuel ∨
     (emitF 30 ⟨["a"], [("a", [("x", .base [.throwErr (.vstr "boom")])])], false, none, 0, []⟩
        (.vstr "a") .undef).2
       = .ok (decide (0 < (jsGet (⟨["a"], [("a", [("x", .base [.throwErr (.vstr "boom")])])],
           false, none, 0, []⟩ : Hub).registry "a" []).length))) ∧
    ((emitF 30 ⟨["a"], [("a", [])], false, none, 0, []⟩ (.vstr "a") .undef).2 = .error .outOfFuel ∨
     (emitF 30 ⟨["a"], [("a", [])], false, none, 0, []⟩ (.vstr "a") .undef).2
       = .ok (decide (0 < (jsGet (⟨["a"], [("a", [])], false, none, 0, []⟩ : Hub).registry
           "a" []).length))) := by
  constructor
  · exact C5_emit_return 30 _ "a" .undef (by rfl)
  · exact C5_emit_return 30 _ "a" .undef (by rfl)

end ClaimC5

section ClaimC7

/-- C7: construction fails with an InvalidArgument-kind error for input
that is not an array, for an empty array, for an array with duplicate
elements (exact equality, checked before the string check), and for an
array containing a non-string element; on success, every declared channel
starts with an empty listener object, debug is disabled (no global flag,
no filter) and the default logger (tag 0) is installed, with an empty
trace. -/
theorem C7_construction :
    (∀ v : Val, (∀ xs : List Val, v ≠ .varr xs) →
        createNexusHub v = .error (.invalidArgument "Event names must be an array"))
  ∧ createNexusHub (.varr [])
      = .error (.invalidArgument "At least one event name must be provided")
  ∧ (∀ xs : List Val, xs ≠ [] → ¬ xs.Nodup →
        createNexusHub (.varr xs)
          = .error (.invalidArgument "Duplicate event names are not allowed"))
  ∧ (∀ xs : List Val, xs.Nodup → (∃ x ∈ xs, x.isStr = false) →
        createNexusHub (.varr xs) = .error (.invalidArgument "Event name must be a string"))
  ∧ (∀ xs : List Val, xs ≠ [] → xs.Nodup → (∀ x ∈ xs, x.isStr = true) →
        createNexusHub (.varr xs) =
          .ok { channels := xs.filterMap (fun x => match x with | .vstr c => some c | _ => none)
                registry := (xs.filterMap (fun x => match x with | .vstr c => some c | _ => none)).map
                  (fun c => (c, ([] : List (String × Cb))))
                debugAll := false
                debugFilter := none
                loggerTag := 0
                trace := [] }) := by
  refine ⟨?_, rfl, ?_, ?_, ?_⟩
  · intro v hv
    cases v with
    | varr xs => exact absurd rfl (hv xs)
    | undef => rfl
    | vnull => rfl
    | vbool b => rfl
    | vnum n => rfl
    | vstr c => rfl
  · intro xs hne hnd
    have hlen : ¬ xs.length = 0 := fun h0 => hne (List.length_eq_zero.mp h0)
    have hdl : xs.dedup.length ≠ xs.length := by
      intro heq
      apply hnd
      have hsub := List.dedup_sublist xs
      have hde := hsub.eq_of_length heq
      rw [← hde]
      exact List.nodup_dedup xs
    simp only [createNexusHub]
    rw [if_neg hlen, if_pos hdl]
  · intro xs hnd hex
    obtain ⟨x, hx, hxs⟩ := hex
    have hlen : ¬ xs.length = 0 := by
      intro h0
      rw [List.length_eq_zero.mp h0] at hx
      cases hx
    have hdl : ¬ xs.dedup.length ≠ xs.length := by
      simp [List.dedup_eq_self.mpr hnd]
    cases hfind : xs.find? (fun x => !x.isStr) with
    | some y =>
        simp only [createNexusHub]
        rw [if_neg hlen, if_neg hdl, hfind]
    | none =>
        rw [List.find?_eq_none] at hfind
        have := hfind x hx
        simp [hxs] at this
  · intro xs hne hnd hstr
    have hlen : ¬ xs.length = 0 := fun h0 => hne (List.length_eq_zero.mp h0)
    have hdl : ¬ xs.dedup.length ≠ xs.length := by
      simp [List.dedup_eq_self.mpr hnd]
    have hfind : xs.find? (fun x => !x.isStr) = none := by
      rw [List.find?_eq_none]
      intro x hx
      simp [hstr x hx]
    simp only [createNexusHub]
    rw [if_neg hlen, if_neg hdl, hfind]

/-- Witness for C7: concrete instances of all four failures and of a
successful construction. -/
theorem C7_construction_witness :
    createNexusHub (.vnum 3) = .error (.invalidArgument "Event names must be an array")
  ∧ createNexusHub (.varr [.vstr "a", .vstr "a"])
      = .error (.invalidArgument "Duplicate event names are not allowed")
  ∧ createNexusHub (.varr [.vnum 1]) = .error (.invalidArgument "Event name must be a string")
  ∧ createNexusHub (.varr [.vstr "a", .vstr "b"]) =
      .ok { channels := ["a", "b"]
            registry := [("a", []), ("b", [])]
            debugAll := false
            debugFilter := none
            loggerTag := 0
            trace := [] } := by
  refine ⟨?_, ?_, ?_, ?_⟩
  · exact C7_construction.1 (.vnum 3) (fun xs h => by cases h)
  · exact C7_construction.2.2.1 [.vstr "a", .vstr "a"] (by intro h; cases h) (by decide)
  · exact C7_construction.2.2.2.1 [.vnum 1] (by decide) ⟨.vnum 1, by decide, rfl⟩
  · exact C7_construction.2.2.2.2 [.vstr "a", .vstr "b"] (by intro h; cases h) (by decide)
      (by decide)

end ClaimC7

theorem jsSetO_of_lookup {α : Type} (m : List (String × α)) (k : String) (v : α)
    (hm : jsLookup m k = some v) : jsSetO m k v = m := by
  induction m with
  | nil => cases hm
  | cons e m ih =>
      obtain ⟨k0, v0⟩ := e
      by_cases hek : k0 = k
      · simp only [jsLookup, beq_iff_eq] at hm
        rw [if_pos hek] at hm
        injection hm with hm
        simp [jsSetO, beq_iff_eq, hek, hm]
      · simp only [jsLookup, beq_iff_eq] at hm
        rw [if_neg hek] at hm
        simp [jsSetO, beq_iff_eq, hek, ih hm]

section ClaimC8

/-- C8: for a declared channel `s` and a string id `i`, `off(s, i)`
removes exactly the listener stored under id `i` of channel `s` and
nothing else: the channel set, debug configuration, logger and trace are
untouched, other ids of the channel and the listener objects of every
other channel are unchanged.  `off(s)` with the id omitted (undefined)
empties only channel `s`.  `off(s, i)` for an id that is not present is a
silent no-op returning the hub unchanged (stated for a registry that has
an entry for `s`, which holds for every constructed hub).  `off(s, v)`
for a present non-string id fails with an InvalidArgument-kind error and
changes nothing. -/
theorem C8_off (h : Hub) (s i : String)
    (hch : h.channels.contains s = true) :
    ((hubOff h (.vstr s) (.vstr i)).2 = .ok ()
      ∧ (hubOff h (.vstr s) (.vstr i)).1.channels = h.channels
      ∧ (hubOff h (.vstr s) (.vstr i)).1.debugAll = h.debugAll
      ∧ (hubOff h (.vstr s) (.vstr i)).1.debugFilter = h.debugFilter
      ∧ (hubOff h (.vstr s) (.vstr i)).1.loggerTag = h.loggerTag
      ∧ (hubOff h (.vstr s) (.vstr i)).1.trace = h.trace
      ∧ jsLookup (jsGet (hubOff h (.vstr s) (.vstr i)).1.registry s []) i = none
      ∧ (∀ j : String, j ≠ i →
          jsLookup (jsGet (hubOff h (.vstr s) (.vstr i)).1.registry s []) j
            = jsLookup (jsGet h.registry s []) j)
      ∧ (∀ s' : String, s' ≠ s →
          jsGet (hubOff h (.vstr s) (.vstr i)).1.registry s' []
            = jsGet h.registry s' []))
  ∧ (jsGet (hubOff h (.vstr s) .undef).1.registry s [] = []
      ∧ (∀ s' : String, s' ≠ s →
          jsGet (hubOff h (.vstr s) .undef).1.registry s' [] = jsGet h.registry s' []))
  ∧ (jsLookup h.registry s = some (jsGet h.registry s []) →
      jsLookup (jsGet h.registry s []) i = none →
      hubOff h (.vstr s) (.vstr i) = (h, .ok ()))
  ∧ (∀ v : Val, v ≠ .undef → v.isStr = false →
      hubOff h (.vstr s) v = (h, .error (.invalidArgument "Listener ID must be a string"))) := by
  have h1 : hubOff h (.vstr s) (.vstr i)
      = ({ h with registry := jsSetO h.registry s (jsDeleteO (jsGet h.registry s []) i) },
         .ok ()) := by
    simp only [hubOff]
    rw [if_pos hch]
  have h2 : hubOff h (.vstr s) .undef
      = ({ h with registry := jsSetO h.registry s [] }, .ok ()) := by
    simp only [hubOff]
    rw [if_pos hch]
  refine ⟨?_, ?_, ?_, ?_⟩
  · rw [h1]
    refine ⟨rfl, rfl, rfl, rfl, rfl, rfl, ?_, ?_, ?_⟩
    · rw [jsGet_jsSetO_self]
      exact jsLookup_jsDeleteO_self _ i
    · intro j hj
      rw [jsGet_jsSetO_self]
      exact jsLookup_jsDeleteO_ne _ i j hj
    · intro s' hs'
      exact jsGet_jsSetO_ne _ s s' _ _ hs'
  · rw [h2]
    exact ⟨jsGet_jsSetO_self _ _ _ _, fun s' hs' => jsGet_jsSetO_ne _ s s' _ _ hs'⟩
  · intro hwf habs
    rw [h1, jsDeleteO_absent _ _ habs, jsSetO_of_lookup h.registry s _ hwf]
  · intro v hv hvs
    cases v with
    | undef => exact absurd rfl hv
    | vstr c => simp [Val.isStr] at hvs
    | vnull => simp only [hubOff]; rw [if_pos hch]
    | vbool b => simp only [hubOff]; rw [if_pos hch]
    | vnum n => simp only [hubOff]; rw [if_pos hch]
    | varr xs => simp only [hubOff]; rw [if_pos hch]

/-- A concrete two-channel hub with one listener on each channel. -/
def hubC8 : Hub :=
  ⟨["a", "b"], [("a", [("x", .base [.record 0])]), ("b", [("y", .base [.record 1])])],
    false, none, 0, []⟩

/-- Witness for C8: removing a non-existent id on a two-channel hub is a
no-op. -/
theorem C8_off_witness : hubOff hubC8 (.vstr "a") (.vstr "z") = (hubC8, .ok ()) :=
  (C8_off hubC8 "a" "z" rfl).2.2.1 rfl rfl

end ClaimC8

section ClaimC10

/-- C10: every hub operation that raises an error leaves the hub exactly
as it was: `on`, `once`, `off`, `clear`, `setDebug` and `setLogger`
validate before mutating, so an error result always comes with the
unchanged hub; `emit` can only fail on an undeclared channel, before any
observable effect (fuel exhaustion, the model artefact for divergence, is
excluded).  In particular `setDebug` with a list containing an undeclared
channel keeps the previous debug configuration and `once` with an invalid
id registers no listener.  (`listenerCount` and `listeners` are read-only
in the model and cannot change state.) -/
theorem C10_error_frame :
    (∀ (h : Hub) (ch id : Val) (cbv : FnV) (h' : Hub) (e : Err),
        hubOn h ch id cbv = (h', .error e) → h' = h)
  ∧ (∀ (h : Hub) (ch id : Val) (cbv : FnV) (h' : Hub) (e : Err),
        hubOnce h ch id cbv = (h', .error e) → h' = h)
  ∧ (∀ (h : Hub) (ch id : Val) (h' : Hub) (e : Err),
        hubOff h ch id = (h', .error e) → h' = h)
  ∧ (∀ (h : Hub) (ch : Val) (h' : Hub) (e : Err),
        hubClear h ch = (h', .error e) → h' = h)
  ∧ (∀ (h : Hub) (v : Val) (h' : Hub) (e : Err),
        hubSetDebug h v = (h', .error e) → h' = h)
  ∧ (∀ (h : Hub) (v : LoggerV) (h' : Hub) (e : Err),
        hubSetLogger h v = (h', .error e) → h' = h)
  ∧ (∀ (fuel : Nat) (h : Hub) (ch p : Val) (h' : Hub) (e : Err),
        emitF fuel h ch p = (h', .error e) → e ≠ .outOfFuel → h' = h) := by
  refine ⟨?_, ?_, ?_, ?_, ?_, ?_, ?_⟩
  · intro h ch id cbv h' e heq
    simp only [hubOn] at heq
    repeat' split at heq
    all_goals
      (injection heq with hA hB;
       first
       | exact hA.symm
       | exact Except.noConfusion hB)
  · intro h ch id cbv h' e heq
    simp only [hubOnce, hubOn] at heq
    repeat' split at heq
    all_goals
      (injection heq with hA hB;
       first
       | exact hA.symm
       | exact Except.noConfusion hB)
  · intro h ch id h' e heq
    simp only [hubOff] at heq
    repeat' split at heq
    all_goals
      (injection heq with hA hB;
       first
       | exact hA.symm
       | exact Except.noConfusion hB)
  · intro h ch h' e heq
    simp only [hubClear] at heq
    repeat' split at heq
    all_goals
      (injection heq with hA hB;
       first
       | exact hA.symm
       | exact Except.noConfusion hB)
  · intro h v h' e heq
    simp only [hubSetDebug] at heq
    repeat' split at heq
    all_goals
      (injection heq with hA hB;
       first
       | exact hA.symm
       | exact Except.noConfusion hB)
  · intro h v h' e heq
    simp only [hubSetLogger] at heq
    repeat' split at heq
    all_goals
      (injection heq with hA hB;
       first
       | exact hA.symm
       | exact Except.noConfusion hB)
  · intro fuel h ch p h' e heq hne
    cases fuel with
    | zero =>
        simp only [emitF, emitWithGhost, interp] at heq
        injection heq with hA hB
        exact hA.symm
    | succ fuel =>
        cases ch with
        | vstr s =>
            simp only [emitF, emitWithGhost, interp] at heq
            by_cases hc : h.channels.contains s = true
            · rw [if_pos hc] at heq
              cases herr : (interp fuel
                  (if debugOn h (.vstr s) = true then pushEv h (.logCall h.loggerTag s p) else h)
                  (.jDispatch (jsValues (jsGet h.registry s [])) p s)).err with
              | none =>
                  simp only [herr] at heq
                  injection heq with hA hB
                  exact Except.noConfusion hB
              | some e0 =>
                  simp only [herr] at heq
                  rcases dispatch_err fuel
                      (if debugOn h (.vstr s) = true then pushEv h (.logCall h.loggerTag s p) else h)
                      (jsValues (jsGet h.registry s [])) p s with hd | hd
                  · rw [herr] at hd; cases hd
                  · rw [herr] at hd
                    injection hd with hd'
                    subst hd'
                    injection heq with hA hB
                    injection hB with hB'
                    exact absurd hB'.symm hne
            · rw [if_neg hc] at heq
              injection heq with hA hB
              exact hA.symm
        | undef =>
            simp only [emitF, emitWithGhost, interp] at heq
            injection heq with hA hB
            exact hA.symm
        | vnull =>
            simp only [emitF, emitWithGhost, interp] at heq
            injection heq with hA hB
            exact hA.symm
        | vbool b =>
            simp only [emitF, emitWithGhost, interp] at heq
            injection heq with hA hB
            exact hA.symm
        | vnum n =>
            simp only [emitF, emitWithGhost, interp] at heq
            injection heq with hA hB
            exact hA.symm
        | varr xs =>
            simp only [emitF, emitWithGhost, interp] at heq
            injection heq with hA hB
            exact hA.symm

/-- Witness for C10: `setDebug` with a list naming an undeclared channel
keeps the hub unchanged, applied at a concrete hub with a live debug
filter. -/
theorem C10_error_frame_witness :
    (hubSetDebug (⟨["a"], [("a", [])], false, some [.vstr "a"], 3, []⟩ : Hub)
        (.varr [.vstr "a", .vstr "zz"])).1
      = (⟨["a"], [("a", [])], false, some [.vstr "a"], 3, []⟩ : Hub) :=
  C10_error_frame.2.2.2.2.1 ⟨["a"], [("a", [])], false, some [.vstr "a"], 3, []⟩
    (.varr [.vstr "a", .vstr "zz"])
    (hubSetDebug (⟨["a"], [("a", [])], false, some [.vstr "a"], 3, []⟩ : Hub)
        (.varr [.vstr "a", .vstr "zz"])).1
    (.unknownChannel (.vstr "zz")) rfl

end ClaimC10

theorem sErr_inl_nil {α : Type} (f : α → Nat) :
    (l : List α) → (l.map (fun x => (Sum.inl (f x) : Sum Nat Val))).filterMap sErr = []
  | [] => rfl
  | x :: l => by simp [sErr, sErr_inl_nil f l]

section ClaimC1

/-- A recorder callback with tag 0. -/
def cbR0 : Cb := .base [.record 0]

/-- A recorder callback with tag 1. -/
def cbR1 : Cb := .base [.record 1]

/-- The hub created by `createNexusHub(["a"])`. -/
def hubA : Hub := ⟨["a"], [("a", [])], false, none, 0, []⟩

/-- `on("a", "2", cbR0)` then `on("a", "1", cbR1)`: registration order is
id "2" first. -/
def hubC1 : Hub :=
  (hubOn (hubOn hubA (.vstr "a") (.vstr "2") (.fn cbR0)).1
    (.vstr "a") (.vstr "1") (.fn cbR1)).1

/-- C1 counterexample: with listener ids that are canonical array-index
strings, registration order is id "2" (callback `cbR0`) before id "1"
(callback `cbR1`), but `listeners("a")` returns `[cbR1, cbR0]` — plain
JavaScript objects enumerate integer-like keys numerically first — and
`emit` invokes the callbacks in that same non-registration order, as the
trace shows.  This refutes the claim as stated for ids that look like
non-negative integers. -/
theorem C1_counterexample :
    createNexusHub (.varr [.vstr "a"]) = .ok hubA
  ∧ hubC1.registry = [("a", [("2", cbR0), ("1", cbR1)])]
  ∧ hubListeners hubC1 (.vstr "a") = .ok [cbR1, cbR0]
  ∧ [cbR1, cbR0] ≠ [cbR0, cbR1]
  ∧ (emitF 20 hubC1 (.vstr "a") .undef).1.trace
      = [.invoked 1 .undef, .invoked 0 .undef] := by
  refine ⟨rfl, rfl, rfl, ?_, rfl⟩
  intro hcontra
  injection hcontra with h1 h2
  simp [cbR1, cbR0] at h1

/-! Lemmas characterizing the JavaScript own-property enumeration order
(`jsOrderedEntries`) of an arbitrary association list: the enumeration
depends only on the keys (it commutes with any key-preserving mapping of
the values), the entries whose keys are array indices come first and are
a permutation of exactly those entries arranged in ascending numeric
order, and the remaining entries follow in insertion order. -/

theorem filterMapIdx_map {α β : Type} (v : String × α → β) :
    (l : List (String × α)) →
    (l.map (fun e => (e.1, v e))).filterMap (fun e => (isArrayIndex e.1).map (fun n => (n, e)))
      = (l.filterMap (fun e => (isArrayIndex e.1).map (fun n => (n, e)))).map
          (fun q => (q.1, (q.2.1, v q.2)))
  | [] => rfl
  | e :: l => by
      cases hie : isArrayIndex e.1 with
      | none => simp [hie, filterMapIdx_map v l]
      | some n => simp [hie, filterMapIdx_map v l]

theorem insertSorted_map {α β : Type} (v : String × α → β) (x : Nat × (String × α)) :
    (L : List (Nat × (String × α))) →
    insertSorted (x.1, (x.2.1, v x.2)) (L.map (fun q => (q.1, (q.2.1, v q.2))))
      = (insertSorted x L).map (fun q => (q.1, (q.2.1, v q.2)))
  | [] => rfl
  | y :: L => by
      by_cases hxy : x.1 < y.1
      · simp [insertSorted, hxy]
      · simp [insertSorted, hxy, insertSorted_map v x L]

theorem sortByIdx_map {α β : Type} (v : String × α → β) :
    (L : List (Nat × (String × α))) →
    sortByIdx (L.map (fun q => (q.1, (q.2.1, v q.2))))
      = (sortByIdx L).map (fun q => (q.1, (q.2.1, v q.2)))
  | [] => rfl
  | x :: L => by
      show insertSorted (x.1, (x.2.1, v x.2))
            (sortByIdx (L.map (fun q => (q.1, (q.2.1, v q.2)))))
          = (insertSorted x (sortByIdx L)).map (fun q => (q.1, (q.2.1, v q.2)))
      rw [sortByIdx_map v L]
      exact insertSorted_map v x (sortByIdx L)

theorem filterIdx_map {α β : Type} (v : String × α → β) :
    (l : List (String × α)) →
    (l.map (fun e => (e.1, v e))).filter (fun e => (isArrayIndex e.1).isNone)
      = (l.filter (fun e => (isArrayIndex e.1).isNone)).map (fun e => (e.1, v e))
  | [] => rfl
  | e :: l => by
      cases hie : isArrayIndex e.1 with
      | none => simp [List.filter_cons, hie, filterIdx_map v l]
      | some n => simp [List.filter_cons, hie, filterIdx_map v l]

/-- The own-property enumeration order depends only on the keys: a
key-preserving map of the values commutes with `jsOrderedEntries`. -/
theorem jsOrderedEntries_map {α β : Type} (v : String × α → β) (l : List (String × α)) :
    jsOrderedEntries (l.map (fun e => (e.1, v e)))
      = (jsOrderedEntries l).map (fun e => (e.1, v e)) := by
  simp only [jsOrderedEntries]
  rw [filterMapIdx_map v l, sortByIdx_map v, filterIdx_map v l]
  simp [List.map_map, Function.comp_def, List.map_append]

/-- `Object.values` of an object built from a source list by a
key-preserving value map: the values come out in the own-property order
of the source list. -/
theorem jsValues_map_val {α β : Type} (v : String × α → β) (l : List (String × α)) :
    jsValues (l.map (fun e => (e.1, v e))) = (jsOrderedEntries l).map v := by
  simp only [jsValues]
  rw [jsOrderedEntries_map v l]
  simp [List.map_map, Function.comp_def]

theorem insertSorted_perm {α : Type} (x : Nat × (String × α)) :
    (L : List (Nat × (String × α))) → (insertSorted x L).Perm (x :: L)
  | [] => List.Perm.refl _
  | y :: L => by
      by_cases hxy : x.1 < y.1
      · rw [show insertSorted x (y :: L) = x :: y :: L from by simp [insertSorted, hxy]]
      · rw [show insertSorted x (y :: L) = y :: insertSorted x L
            from by simp [insertSorted, hxy]]
        exact ((insertSorted_perm x L).cons y).trans (List.Perm.swap x y L)

theorem sortByIdx_perm {α : Type} :
    (L : List (Nat × (String × α))) → (sortByIdx L).Perm L
  | [] => List.Perm.refl _
  | x :: L => by
      show (insertSorted x (sortByIdx L)).Perm (x :: L)
      exact (insertSorted_perm x (sortByIdx L)).trans ((sortByIdx_perm L).cons x)

theorem insertSorted_sorted {α : Type} (x : Nat × (String × α)) :
    (L : List (Nat × (String × α))) →
    List.Pairwise (fun a b => a.1 ≤ b.1) L →
    List.Pairwise (fun a b => a.1 ≤ b.1) (insertSorted x L)
  | [], _ => by simp [insertSorted]
  | y :: L, hp => by
      rw [List.pairwise_cons] at hp
      by_cases hxy : x.1 < y.1
      · rw [show insertSorted x (y :: L) = x :: y :: L from by simp [insertSorted, hxy]]
        rw [List.pairwise_cons]
        refine ⟨?_, ?_⟩
        · intro z hz
          rcases List.mem_cons.mp hz with rfl | hz2
          · exact Nat.le_of_lt hxy
          · exact Nat.le_trans (Nat.le_of_lt hxy) (hp.1 z hz2)
        · rw [List.pairwise_cons]
          exact hp
      · rw [show insertSorted x (y :: L) = y :: insertSorted x L
            from by simp [insertSorted, hxy]]
        rw [List.pairwise_cons]
        refine ⟨?_, insertSorted_sorted x L hp.2⟩
        intro z hz
        rcases List.mem_cons.mp ((insertSorted_perm x L).mem_iff.mp hz) with rfl | hz2
        · exact Nat.le_of_not_lt hxy
        · exact hp.1 z hz2

theorem sortByIdx_sorted {α : Type} :
    (L : List (Nat × (String × α))) →
    List.Pairwise (fun a b => a.1 ≤ b.1) (sortByIdx L)
  | [] => List.Pairwise.nil
  | x :: L => insertSorted_sorted x (sortByIdx L) (sortByIdx_sorted L)

theorem filterMap_idx_snd {α : Type} :
    (l : List (String × α)) →
    (l.filterMap (fun e => (isArrayIndex e.1).map (fun n => (n, e)))).map (fun q => q.2)
      = l.filter (fun e => (isArrayIndex e.1).isSome)
  | [] => rfl
  | e :: l => by
      cases hie : isArrayIndex e.1 with
      | none => simp [List.filter_cons, hie, filterMap_idx_snd l]
      | some n => simp [List.filter_cons, hie, filterMap_idx_snd l]

theorem filterMap_idx_key {α : Type} :
    (l : List (String × α)) →
    ∀ q ∈ l.filterMap (fun e => (isArrayIndex e.1).map (fun n => (n, e))),
      isArrayIndex q.2.1 = some q.1
  | [] => by intro q hq; cases hq
  | e :: l => by
      intro q hq
      cases hie : isArrayIndex e.1 with
      | none =>
          rw [List.filterMap_cons] at hq
          simp only [hie, Option.map_none] at hq
          exact filterMap_idx_key l q hq
      | some n =>
          rw [List.filterMap_cons] at hq
          simp only [hie, Option.map_some] at hq
          rcases List.mem_cons.mp hq with rfl | hq2
          · simpa using hie
          · exact filterMap_idx_key l q hq2

/-- C1 amended: for every hub, declared channel and listener-id list —
with no restriction on the ids — `listeners(channel)` returns the
callbacks, and `emit` invokes each snapshotted listener exactly once, in
the JavaScript own-property order `jsOrderedEntries` of the registered
(id, tag) list.  That order is characterized as the amendment states it:
the entries whose ids are canonical array-index strings come first — a
permutation of exactly those entries arranged in ascending numeric order
of their indices — followed by the remaining entries in
registration-insertion order; and when no id is an array-index string the
order is exactly registration-insertion order.  Stated for a channel
holding recorder listeners `l` in registration order (the tags identify
the callbacks; the trace lists the invocations in order). -/
theorem C1_own_property_order (h : Hub) (s : String) (p : Val) (fuel : Nat)
    (l : List (String × Nat))
    (hch : h.channels.contains s = true)
    (hreg : jsGet h.registry s [] = l.map (fun e => (e.1, sCb (Sum.inl e.2))))
    (hf : 4 * l.length + 2 ≤ fuel) :
    hubListeners h (.vstr s) = .ok ((jsOrderedEntries l).map (fun e => sCb (Sum.inl e.2)))
  ∧ (emitF fuel h (.vstr s) p).1.trace =
      h.trace ++ (if debugOn h (.vstr s) then [Ev.logCall h.loggerTag s p] else [])
        ++ (jsOrderedEntries l).map (fun e => Ev.invoked e.2 p)
  ∧ (emitF fuel h (.vstr s) p).2 = .ok (decide (0 < l.length))
  ∧ (jsOrderedEntries l).drop (l.filter (fun e => (isArrayIndex e.1).isSome)).length
      = l.filter (fun e => (isArrayIndex e.1).isNone)
  ∧ ((jsOrderedEntries l).take
        (l.filter (fun e => (isArrayIndex e.1).isSome)).length).Perm
      (l.filter (fun e => (isArrayIndex e.1).isSome))
  ∧ List.Pairwise
      (fun a b => (isArrayIndex a.1).getD 0 ≤ (isArrayIndex b.1).getD 0)
      ((jsOrderedEntries l).take
        (l.filter (fun e => (isArrayIndex e.1).isSome)).length)
  ∧ ((∀ e ∈ l, isArrayIndex e.1 = none) → jsOrderedEntries l = l) := by
  have hvals : jsValues (jsGet h.registry s [])
      = ((jsOrderedEntries l).map (fun e => (Sum.inl e.2 : Sum Nat Val))).map sCb := by
    rw [hreg, jsValues_map_val (fun e => sCb (Sum.inl e.2)) l]
    simp [List.map_map, Function.comp_def]
  have hlen : (jsOrderedEntries l).length = l.length := by
    have h1 : (jsValues l).length = l.length := jsValues_length l
    simp only [jsValues, List.length_map] at h1
    exact h1
  have hflen : 4 * ((jsOrderedEntries l).map (fun e => (Sum.inl e.2 : Sum Nat Val))).length + 2
      ≤ fuel := by
    rw [List.length_map, hlen]
    exact hf
  have hemit := emit_simple ((jsOrderedEntries l).map (fun e => (Sum.inl e.2 : Sum Nat Val)))
    fuel h s p hch hvals hflen
  have herrs := sErr_inl_nil (fun e : String × Nat => e.2) (jsOrderedEntries l)
  have hAlen : ((sortByIdx (l.filterMap (fun e => (isArrayIndex e.1).map (fun n => (n, e))))).map
        (fun q => q.2)).length
      = (l.filter (fun e => (isArrayIndex e.1).isSome)).length := by
    rw [← filterMap_idx_snd l, List.length_map, List.length_map, sortByIdx_length]
  refine ⟨?_, ?_, ?_, ?_, ?_, ?_, ?_⟩
  · simp only [hubListeners]
    rw [if_pos hch, hreg, jsValues_map_val (fun e => sCb (Sum.inl e.2)) l]
  · simp only [emitF, hemit]
    rw [herrs]
    simp [List.map_map, Function.comp_def, sEv]
  · simp only [emitF, hemit]
    simp [hlen]
  · simp only [jsOrderedEntries]
    rw [← hAlen, List.drop_left]
  · simp only [jsOrderedEntries]
    rw [← hAlen, List.take_left]
    refine ((sortByIdx_perm _).map (fun q => q.2)).trans ?_
    rw [filterMap_idx_snd l]
  · simp only [jsOrderedEntries]
    rw [← hAlen, List.take_left, List.pairwise_map]
    refine List.Pairwise.imp_of_mem (fun {q r} hq hr hle => ?_)
      (sortByIdx_sorted (l.filterMap (fun e => (isArrayIndex e.1).map (fun n => (n, e)))))
    have hq2 := filterMap_idx_key l q ((sortByIdx_perm _).mem_iff.mp hq)
    have hr2 := filterMap_idx_key l r ((sortByIdx_perm _).mem_iff.mp hr)
    rw [hq2, hr2]
    simpa using hle
  · intro hidx
    simp only [jsOrderedEntries]
    rw [filterMapIdx_nil l hidx, filterIdx_self l hidx]
    simp [sortByIdx]

/-- A hub whose channel "a" holds recorders under ids "2", "1" and "x",
registered in that order. -/
def hubC1w : Hub :=
  ⟨["a"], [("a", [("2", sCb (Sum.inl 0)), ("1", sCb (Sum.inl 1)), ("x", sCb (Sum.inl 2))])],
    false, none, 0, []⟩

/-- Witness for C1 (amended): with ids "2", "1" and "x" registered in
that order, both `listeners` and the emission trace follow the JS
own-property order — the array-index ids ascending first ("1" then "2"),
then "x". -/
theorem C1_own_property_order_witness :
    hubListeners hubC1w (.vstr "a")
      = .ok [sCb (Sum.inl 1), sCb (Sum.inl 0), sCb (Sum.inl 2)]
  ∧ (emitF 30 hubC1w (.vstr "a") .undef).1.trace
      = [.invoked 1 .undef, .invoked 0 .undef, .invoked 2 .undef] := by
  have := C1_own_property_order hubC1w "a" .undef 30 [("2", 0), ("1", 1), ("x", 2)]
    rfl rfl (by decide)
  refine ⟨?_, ?_⟩
  · rw [this.1]
    rfl
  · rw [this.2.1]
    rfl

end ClaimC1

section ClaimC4

/-- C4: when a listener throws during an emission the error is caught
inside `emit`: the call still returns normally with `ok true`, every
remaining snapshotted listener is still invoked (the recorders after the
thrower all appear in the trace, after the diagnostic), and a
`console.error` diagnostic naming the channel and carrying the caught
error is emitted.  The diagnostic is a fixed sink: the hub — and with it
the configured logger tag — is arbitrary, and the `consoleError` event
does not involve the logger at all, so the reporting is the same whatever
logger `setLogger` installed. -/
theorem C4_fault_isolation (h : Hub) (s : String) (p e : Val) (fuel : Nat)
    (pre post : List Nat)
    (hch : h.channels.contains s = true)
    (hsnap : jsValues (jsGet h.registry s []) =
        (pre.map (fun t => (Sum.inl t : Sum Nat Val)) ++ [Sum.inr e]
          ++ post.map (fun t => (Sum.inl t : Sum Nat Val))).map sCb)
    (hf : 4 * (pre.length + 1 + post.length) + 2 ≤ fuel) :
    (emitF fuel h (.vstr s) p).2 = .ok true
  ∧ (emitF fuel h (.vstr s) p).1.trace =
      h.trace ++ (if debugOn h (.vstr s) then [Ev.logCall h.loggerTag s p] else [])
        ++ pre.map (fun t => Ev.invoked t p)
        ++ [Ev.consoleError s (.userErr e)]
        ++ post.map (fun t => Ev.invoked t p)
        ++ (if debugOn h (.vstr s) then [Ev.consoleErrorCount s 1] else [])
  ∧ Ev.consoleError s (.userErr e) ∈ (emitF fuel h (.vstr s) p).1.trace := by
  have hlen : 4 * (pre.map (fun t => (Sum.inl t : Sum Nat Val)) ++ [Sum.inr e]
      ++ post.map (fun t => (Sum.inl t : Sum Nat Val))).length + 2 ≤ fuel := by
    simp only [List.length_append, List.length_map, List.length_cons, List.length_nil]
    omega
  have hemit := emit_simple (pre.map (fun t => (Sum.inl t : Sum Nat Val)) ++ [Sum.inr e]
      ++ post.map (fun t => (Sum.inl t : Sum Nat Val))) fuel h s p hch hsnap hlen
  have herrs : (pre.map (fun t => (Sum.inl t : Sum Nat Val)) ++ [Sum.inr e]
      ++ post.map (fun t => (Sum.inl t : Sum Nat Val))).filterMap sErr = [.userErr e] := by
    simp [List.filterMap_append, sErr_inl_nil (fun t => t), sErr]
  have hret : (emitF fuel h (.vstr s) p).2 = .ok true := by
    simp only [emitF, hemit]
    simp only [List.length_append, List.length_map, List.length_cons, List.length_nil]
    simp
  have htr : (emitF fuel h (.vstr s) p).1.trace =
      h.trace ++ (if debugOn h (.vstr s) then [Ev.logCall h.loggerTag s p] else [])
        ++ pre.map (fun t => Ev.invoked t p)
        ++ [Ev.consoleError s (.userErr e)]
        ++ post.map (fun t => Ev.invoked t p)
        ++ (if debugOn h (.vstr s) then [Ev.consoleErrorCount s 1] else []) := by
    simp only [emitF, hemit]
    rw [herrs]
    simp [List.map_map, Function.comp_def, sEv, List.append_assoc]
  refine ⟨hret, htr, ?_⟩
  rw [htr]
  simp [List.mem_append]

/-- Witness for C4: one thrower between two recorders. -/
theorem C4_fault_isolation_witness :
    (emitF 30 (⟨["a"], [("a", [("u", sCb (Sum.inl 0)), ("v", sCb (Sum.inr (.vstr "boom"))),
        ("w", sCb (Sum.inl 1))])], false, none, 7, []⟩ : Hub) (.vstr "a") .undef).2 = .ok true
  ∧ Ev.consoleError "a" (.userErr (.vstr "boom"))
      ∈ (emitF 30 (⟨["a"], [("a", [("u", sCb (Sum.inl 0)), ("v", sCb (Sum.inr (.vstr "boom"))),
          ("w", sCb (Sum.inl 1))])], false, none, 7, []⟩ : Hub) (.vstr "a") .undef).1.trace := by
  have := C4_fault_isolation
    (⟨["a"], [("a", [("u", sCb (Sum.inl 0)), ("v", sCb (Sum.inr (.vstr "boom"))),
        ("w", sCb (Sum.inl 1))])], false, none, 7, []⟩ : Hub)
    "a" .undef (.vstr "boom") 30 [0] [1] rfl rfl (by decide)
  exact ⟨this.1, this.2.2⟩

end ClaimC4

section ClaimC9

/-- C9: after `setDebug(true)`, every emission invokes the active logger
with `(channel, payload)` before dispatching to the listeners (the
`logCall` event precedes the listener events in the trace); after
`setDebug(L)` for a list of declared channels, emissions invoke the
logger exactly for channels in `L`; after `setDebug(false)` no emission
invokes the logger (the trace gains no `logCall` event at all);
`setDebug` with a list containing an undeclared channel fails with an
UnknownChannel-kind error naming an offending element and leaves the hub
unchanged; any other (non-boolean, non-array) argument fails with
InvalidArgument.  The emission parts are stated over snapshots of simple
callbacks, whose full trace the model determines exactly. -/
theorem C9_setDebug :
    (∀ (h : Hub) (l : List (Sum Nat Val)) (fuel : Nat) (s : String) (p : Val),
        h.channels.contains s = true →
        jsValues (jsGet h.registry s []) = l.map sCb →
        4 * l.length + 2 ≤ fuel →
        (emitF fuel (hubSetDebug h (.vbool true)).1 (.vstr s) p).1.trace =
          h.trace ++ [Ev.logCall h.loggerTag s p] ++ l.map (sEv s p)
            ++ (if decide (0 < (l.filterMap sErr).length) then
                  [Ev.consoleErrorCount s (l.filterMap sErr).length] else []))
  ∧ (∀ (h : Hub) (L : List Val) (l : List (Sum Nat Val)) (fuel : Nat) (s : String) (p : Val),
        (∀ x ∈ L, validHas h x = true) →
        h.channels.contains s = true →
        jsValues (jsGet h.registry s []) = l.map sCb →
        4 * l.length + 2 ≤ fuel →
        (emitF fuel (hubSetDebug h (.varr L)).1 (.vstr s) p).1.trace =
          h.trace ++ (if L.contains (Val.vstr s) then [Ev.logCall h.loggerTag s p] else [])
            ++ l.map (sEv s p)
            ++ (if decide (0 < (l.filterMap sErr).length) && L.contains (Val.vstr s) then
                  [Ev.consoleErrorCount s (l.filterMap sErr).length] else []))
  ∧ (∀ (h : Hub) (l : List (Sum Nat Val)) (fuel : Nat) (s : String) (p : Val),
        h.channels.contains s = true →
        jsValues (jsGet h.registry s []) = l.map sCb →
        4 * l.length + 2 ≤ fuel →
        (emitF fuel (hubSetDebug h (.vbool false)).1 (.vstr s) p).1.trace =
            h.trace ++ l.map (sEv s p)
          ∧ (∀ (n : Nat) (c : String) (q : Val),
              Ev.logCall n c q ∈ (emitF fuel (hubSetDebug h (.vbool false)).1 (.vstr s) p).1.trace →
              Ev.logCall n c q ∈ h.trace))
  ∧ (∀ (h : Hub) (L : List Val), (∃ x ∈ L, validHas h x = false) →
        ∃ b, hubSetDebug h (.varr L) = (h, .error (.unknownChannel b)) ∧ validHas h b = false)
  ∧ (∀ (h : Hub) (v : Val), (∀ b : Bool, v ≠ .vbool b) → (∀ xs : List Val, v ≠ .varr xs) →
        hubSetDebug h v
          = (h, .error (.invalidArgument "Debug must be boolean or array of event names"))) := by
  refine ⟨?_, ?_, ?_, ?_, ?_⟩
  · intro h l fuel s p hch hsnap hf
    have he := emit_simple l fuel ((hubSetDebug h (.vbool true)).1) s p hch hsnap hf
    simp only [emitF, he]
    simp [hubSetDebug, debugOn]
  · intro h L l fuel s p hall hch hsnap hf
    have hfind : L.find? (fun x => !validHas h x) = none := by
      rw [List.find?_eq_none]
      intro x hx
      simp [hall x hx]
    have hset : hubSetDebug h (.varr L)
        = ({ h with debugAll := false, debugFilter := some L }, .ok ()) := by
      simp only [hubSetDebug]
      rw [hfind]
    rw [hset]
    have he := emit_simple l fuel ({ h with debugAll := false, debugFilter := some L }) s p
      hch hsnap hf
    simp only [emitF, he]
    simp [debugOn]
  · intro h l fuel s p hch hsnap hf
    have he := emit_simple l fuel ((hubSetDebug h (.vbool false)).1) s p hch hsnap hf
    constructor
    · simp only [emitF, he]
      simp [hubSetDebug, debugOn]
    · intro n c q hmem
      simp only [emitF, he] at hmem
      simp [hubSetDebug, debugOn] at hmem
      rcases hmem with hmem | hmem
      · exact hmem
      · exfalso
        rcases hmem with ⟨t, _, hxeq⟩ | ⟨e, _, hxeq⟩
        · simp [sEv] at hxeq
        · simp [sEv] at hxeq
  · intro h L hex
    cases hfind : L.find? (fun x => !validHas h x) with
    | none =>
        exfalso
        rw [List.find?_eq_none] at hfind
        obtain ⟨x, hx, hxv⟩ := hex
        have := hfind x hx
        simp [hxv] at this
    | some b =>
        refine ⟨b, ?_, ?_⟩
        · simp only [hubSetDebug]
          rw [hfind]
        · have := List.find?_some hfind
          simpa using this
  · intro h v hb hr
    cases v with
    | vbool b => exact absurd rfl (hb b)
    | varr xs => exact absurd rfl (hr xs)
    | undef => rfl
    | vnull => rfl
    | vnum n => rfl
    | vstr c => rfl

/-- Witness for C9: after `setDebug(true)`, an emission on a one-listener
channel logs before dispatching. -/
theorem C9_setDebug_witness :
    (emitF 30 (hubSetDebug (⟨["a"], [("a", [("x", sCb (Sum.inl 5))])], false, none, 9, []⟩ : Hub)
        (.vbool true)).1 (.vstr "a") (.vnum 1)).1.trace
      = [Ev.logCall 9 "a" (.vnum 1), Ev.invoked 5 (.vnum 1)] := by
  rw [C9_setDebug.1 (⟨["a"], [("a", [("x", sCb (Sum.inl 5))])], false, none, 9, []⟩ : Hub)
      [Sum.inl 5] 30 "a" (.vnum 1) rfl rfl (by decide)]
  rfl

end ClaimC9

/-- Dispatch of a single `once` wrapper whose original callback throws:
the wrapper propagates the error before reaching its `hub.off` statement,
the try/catch of `emit` reports it, and the registry is untouched. -/
theorem dispatch_wrapper_thrower (g : Nat) (h : Hub) (s : String) (i e p : Val)
    (hg : 6 ≤ g) :
    interp g h (.jDispatch [Cb.wrapper s i (Cb.base [Act.throwErr e])] p s) =
      ⟨pushEv h (.consoleError s (.userErr e)), none, false, [.userErr e],
        [Cb.wrapper s i (Cb.base [Act.throwErr e])]⟩ := by
  obtain ⟨k, rfl⟩ : ∃ k, g = k + 6 := ⟨g - 6, by omega⟩
  rfl

/-- Emission on a channel holding exactly one `once` wrapper (stored
under id `k0`) whose original callback throws: `emit` returns `ok true`,
reports the error, and the registry — in particular the wrapper entry —
is left untouched because the self-removal was skipped. -/
theorem emit_throwing_wrapper (fuel : Nat) (h : Hub) (s k0 : String) (i e p : Val)
    (hch : h.channels.contains s = true)
    (hone : jsGet h.registry s [] = [(k0, Cb.wrapper s i (Cb.base [Act.throwErr e]))])
    (hf : 8 ≤ fuel) :
    emitF fuel h (.vstr s) p =
      ({ h with trace := h.trace
           ++ (if debugOn h (.vstr s) then [Ev.logCall h.loggerTag s p] else [])
           ++ [Ev.consoleError s (.userErr e)]
           ++ (if debugOn h (.vstr s) then [Ev.consoleErrorCount s 1] else []) },
       .ok true) := by
  obtain ⟨g, rfl⟩ : ∃ g, fuel = g + 1 := ⟨fuel - 1, by omega⟩
  simp only [emitF, emitWithGhost, interp]
  rw [if_pos hch, hone, jsValues_singleton]
  cases hdbg : debugOn h (.vstr s) with
  | true =>
      simp only [if_pos hdbg, if_true]
      rw [dispatch_wrapper_thrower g (pushEv h (.logCall h.loggerTag s p)) s i e p (by omega)]
      simp [pushEv, debugOn_trace, hdbg, List.append_assoc]
  | false =>
      rw [show (if false = true then pushEv h (Ev.logCall h.loggerTag s p) else h) = h
          from rfl]
      rw [dispatch_wrapper_thrower g h s i e p (by omega)]
      simp [pushEv, debugOn_trace, hdbg, List.append_assoc]

section ClaimC2

/-- C2: a `once` listener whose callback throws is not removed.  The
wrapper body is `callback(data); hub.off(eventName, id);` — the exception
from the first statement skips the second — so after registering such a
listener via `once` on an empty channel and emitting, `emit` itself
returns normally (the error is caught by its try/catch), the listener is
still registered under `(channel, id)`, `listenerCount(channel)` is
unchanged at 1, and the next emission on the channel invokes the listener
again (a second `console.error` diagnostic for the same thrown value). -/
theorem C2_throwing_once (h : Hub) (s i : String) (e p p2 : Val) (fuel : Nat)
    (hch : h.channels.contains s = true)
    (hempty : jsGet h.registry s [] = [])
    (hid : trimEmpty i = false)
    (hf : 8 ≤ fuel) :
    (hubOnce h (.vstr s) (.vstr i) (.fn (Cb.base [Act.throwErr e]))).2 = .ok ()
  ∧ jsGet (hubOnce h (.vstr s) (.vstr i) (.fn (Cb.base [Act.throwErr e]))).1.registry s []
      = [(i, Cb.wrapper s (.vstr i) (Cb.base [Act.throwErr e]))]
  ∧ hubListenerCount (hubOnce h (.vstr s) (.vstr i) (.fn (Cb.base [Act.throwErr e]))).1
      (.vstr s) = .ok 1
  ∧ (emitF fuel (hubOnce h (.vstr s) (.vstr i) (.fn (Cb.base [Act.throwErr e]))).1
      (.vstr s) p).2 = .ok true
  ∧ jsGet (emitF fuel (hubOnce h (.vstr s) (.vstr i) (.fn (Cb.base [Act.throwErr e]))).1
      (.vstr s) p).1.registry s []
      = [(i, Cb.wrapper s (.vstr i) (Cb.base [Act.throwErr e]))]
  ∧ hubListenerCount (emitF fuel (hubOnce h (.vstr s) (.vstr i)
      (.fn (Cb.base [Act.throwErr e]))).1 (.vstr s) p).1 (.vstr s) = .ok 1
  ∧ (emitF fuel (emitF fuel (hubOnce h (.vstr s) (.vstr i)
        (.fn (Cb.base [Act.throwErr e]))).1 (.vstr s) p).1 (.vstr s) p2).1.trace
      = (emitF fuel (hubOnce h (.vstr s) (.vstr i)
          (.fn (Cb.base [Act.throwErr e]))).1 (.vstr s) p).1.trace
        ++ (if debugOn h (.vstr s) then [Ev.logCall h.loggerTag s p2] else [])
        ++ [Ev.consoleError s (.userErr e)]
        ++ (if debugOn h (.vstr s) then [Ev.consoleErrorCount s 1] else []) := by
  have hA : hubOnce h (.vstr s) (.vstr i) (.fn (Cb.base [Act.throwErr e]))
      = ({ h with registry := jsSetO h.registry s [(i, Cb.wrapper s (.vstr i) (Cb.base [Act.throwErr e]))] }, .ok ()) := by
    simp only [hubOnce, hubOn]
    rw [if_pos hch, if_pos hch]
    rw [if_neg (show ¬ trimEmpty i = true by simp [hid])]
    rw [hempty]
    rfl
  have hmem : s ∈ h.channels := by simpa using hch
  rw [hA]
  have hreg1 : jsGet (jsSetO h.registry s [(i, Cb.wrapper s (.vstr i) (Cb.base [Act.throwErr e]))]) s []
      = [(i, Cb.wrapper s (.vstr i) (Cb.base [Act.throwErr e]))] :=
    jsGet_jsSetO_self _ _ _ _
  have hE1 := emit_throwing_wrapper fuel
    ({ h with registry := jsSetO h.registry s [(i, Cb.wrapper s (.vstr i) (Cb.base [Act.throwErr e]))] }) s i (.vstr i) e p
    hch hreg1 hf
  have hE2 := emit_throwing_wrapper fuel
    (emitF fuel ({ h with registry := jsSetO h.registry s [(i, Cb.wrapper s (.vstr i) (Cb.base [Act.throwErr e]))] }) (.vstr s) p).1
    s i (.vstr i) e p2 (by rw [hE1]; exact hch) (by rw [hE1]; exact hreg1) hf
  refine ⟨rfl, hreg1, ?_, ?_, ?_, ?_, ?_⟩
  · simp [hubListenerCount, hmem, hreg1]
  · rw [hE1]
  · rw [hE1]; exact hreg1
  · rw [hE1]; simp [hubListenerCount, hmem, hreg1]
  · rw [hE2, hE1]
    simp [debugOn, List.append_assoc]

/-- Witness for C2: a concrete throwing `once` listener stays registered
and fires on the second emission. -/
theorem C2_throwing_once_witness :
    jsGet (emitF 30 (hubOnce (⟨["a"], [("a", [])], false, none, 0, []⟩ : Hub) (.vstr "a")
        (.vstr "y") (.fn (Cb.base [Act.throwErr (.vstr "boom")]))).1
        (.vstr "a") (.vstr "p1")).1.registry "a" []
      = [("y", Cb.wrapper "a" (.vstr "y") (Cb.base [Act.throwErr (.vstr "boom")]))]
  ∧ hubListenerCount (emitF 30 (hubOnce (⟨["a"], [("a", [])], false, none, 0, []⟩ : Hub)
        (.vstr "a") (.vstr "y") (.fn (Cb.base [Act.throwErr (.vstr "boom")]))).1
        (.vstr "a") (.vstr "p1")).1 (.vstr "a") = .ok 1 := by
  have := C2_throwing_once (⟨["a"], [("a", [])], false, none, 0, []⟩ : Hub) "a" "y"
    (.vstr "boom") (.vstr "p1") (.vstr "p2") 30 rfl rfl (by decide) (by decide)
  exact ⟨this.2.2.2.2.1, this.2.2.2.2.2.1⟩

end ClaimC2

theorem jsSetO_jsSetO {α : Type} (m : List (String × α)) (k : String) (v v' : α) :
    jsSetO (jsSetO m k v) k v' = jsSetO m k v' := by
  induction m with
  | nil => simp [jsSetO]
  | cons e m ih =>
      by_cases hek : e.1 = k
      · simp [jsSetO, beq_iff_eq, hek]
      · simp [jsSetO, beq_iff_eq, hek, ih]

/-- Dispatch of a single `once` wrapper whose original callback records
its invocation: the callback runs (the invocation is appended to the
trace) and then the wrapper removes the `(channel, id)` entry via
`hub.off`. -/
theorem dispatch_wrapper_recorder (g : Nat) (h : Hub) (s i : String) (t : Nat) (p : Val)
    (hch : h.channels.contains s = true) (hg : 8 ≤ g) :
    interp g h (.jDispatch [Cb.wrapper s (.vstr i) (Cb.base [Act.record t])] p s) =
      ⟨{ h with registry := jsSetO h.registry s (jsDeleteO (jsGet h.registry s []) i), trace := h.trace ++ [Ev.invoked t p] },
        none, false, [], [Cb.wrapper s (.vstr i) (Cb.base [Act.record t])]⟩ := by
  obtain ⟨k, rfl⟩ : ∃ k, g = k + 8 := ⟨g - 8, by omega⟩
  simp only [interp, hubOff, pushEv]
  rw [if_pos hch]

/-- Emission on a channel holding exactly one `once` wrapper around a
recorder: the callback is invoked once with the payload and the wrapper
then empties the channel entry for its id. -/
theorem emit_recorder_wrapper (fuel : Nat) (h : Hub) (s i : String) (t : Nat) (p : Val)
    (hch : h.channels.contains s = true)
    (hone : jsGet h.registry s [] = [(i, Cb.wrapper s (.vstr i) (Cb.base [Act.record t]))])
    (hf : 10 ≤ fuel) :
    emitF fuel h (.vstr s) p =
      ({ h with registry := jsSetO h.registry s [], trace := h.trace ++ (if debugOn h (.vstr s) then [Ev.logCall h.loggerTag s p] else [])
             ++ [Ev.invoked t p] }, .ok true) := by
  obtain ⟨g, rfl⟩ : ∃ g, fuel = g + 1 := ⟨fuel - 1, by omega⟩
  simp only [emitF, emitWithGhost, interp]
  rw [if_pos hch, hone, jsValues_singleton]
  have hdel : jsDeleteO [(i, Cb.wrapper s (.vstr i) (Cb.base [Act.record t]))] i
      = ([] : List (String × Cb)) := by simp [jsDeleteO]
  cases hdbg : debugOn h (.vstr s) with
  | true =>
      simp only [if_pos hdbg, if_true]
      rw [dispatch_wrapper_recorder g (pushEv h (.logCall h.loggerTag s p)) s i t p hch
        (by omega)]
      simp [pushEv, debugOn_trace, hone, hdel, List.append_assoc]
  | false =>
      rw [show (if false = true then pushEv h (Ev.logCall h.loggerTag s p) else h) = h
          from rfl]
      rw [dispatch_wrapper_recorder g h s i t p hch (by omega)]
      simp [debugOn_trace, hone, hdel, List.append_assoc]

section ClaimC6

/-- C6: `once` registered once or twice in a row under the same channel
and id produces the same state (the second registration overwrites the
first wrapper with an identical one), the first emission calls the
callback exactly once with the first payload and removes the listener, so
`listenerCount(channel)` is 0 immediately after it returns, and the
second emission finds no listeners: it returns `false` and adds no
invocation — across both emissions the callback ran exactly once, with
the first payload only. -/
theorem C6_once_twice (h : Hub) (s i : String) (t : Nat) (p1 p2 : Val) (fuel : Nat)
    (hch : h.channels.contains s = true)
    (hempty : jsGet h.registry s [] = [])
    (hid : trimEmpty i = false)
    (hf : 10 ≤ fuel) :
    hubOnce (hubOnce h (.vstr s) (.vstr i) (.fn (Cb.base [Act.record t]))).1 (.vstr s) (.vstr i)
        (.fn (Cb.base [Act.record t]))
      = ((hubOnce h (.vstr s) (.vstr i) (.fn (Cb.base [Act.record t]))).1, .ok ())
  ∧ emitF fuel (hubOnce h (.vstr s) (.vstr i) (.fn (Cb.base [Act.record t]))).1 (.vstr s) p1
      = ({ h with registry := jsSetO h.registry s [], trace := h.trace ++ (if debugOn h (.vstr s) then [Ev.logCall h.loggerTag s p1] else [])
               ++ [Ev.invoked t p1] }, .ok true)
  ∧ hubListenerCount (emitF fuel (hubOnce h (.vstr s) (.vstr i)
        (.fn (Cb.base [Act.record t]))).1 (.vstr s) p1).1 (.vstr s) = .ok 0
  ∧ (emitF fuel (emitF fuel (hubOnce h (.vstr s) (.vstr i)
        (.fn (Cb.base [Act.record t]))).1 (.vstr s) p1).1 (.vstr s) p2).2 = .ok false
  ∧ (emitF fuel (emitF fuel (hubOnce h (.vstr s) (.vstr i)
        (.fn (Cb.base [Act.record t]))).1 (.vstr s) p1).1 (.vstr s) p2).1.trace
      = (emitF fuel (hubOnce h (.vstr s) (.vstr i)
          (.fn (Cb.base [Act.record t]))).1 (.vstr s) p1).1.trace
        ++ (if debugOn h (.vstr s) then [Ev.logCall h.loggerTag s p2] else []) := by
  have hmem : s ∈ h.channels := by simpa using hch
  have hA : hubOnce h (.vstr s) (.vstr i) (.fn (Cb.base [Act.record t]))
      = ({ h with registry := jsSetO h.registry s [(i, Cb.wrapper s (.vstr i) (Cb.base [Act.record t]))] }, .ok ()) := by
    simp only [hubOnce, hubOn]
    rw [if_pos hch, if_pos hch]
    rw [if_neg (show ¬ trimEmpty i = true by simp [hid])]
    rw [hempty]
    rfl
  rw [hA]
  have hreg1 : jsGet (jsSetO h.registry s [(i, Cb.wrapper s (.vstr i) (Cb.base [Act.record t]))]) s []
      = [(i, Cb.wrapper s (.vstr i) (Cb.base [Act.record t]))] :=
    jsGet_jsSetO_self _ _ _ _
  have hB : emitF fuel ({ h with registry := jsSetO h.registry s [(i, Cb.wrapper s (.vstr i) (Cb.base [Act.record t]))] }) (.vstr s) p1
      = ({ h with registry := jsSetO h.registry s [], trace := h.trace ++ (if debugOn h (.vstr s) then [Ev.logCall h.loggerTag s p1] else [])
               ++ [Ev.invoked t p1] }, .ok true) := by
    rw [emit_recorder_wrapper fuel
      ({ h with registry := jsSetO h.registry s [(i, Cb.wrapper s (.vstr i) (Cb.base [Act.record t]))] })
      s i t p1 hch hreg1 hf]
    simp [debugOn, jsSetO_jsSetO]
  refine ⟨?_, hB, ?_, ?_, ?_⟩
  · simp only [hubOnce, hubOn]
    rw [if_pos hch, if_pos hch]
    rw [if_neg (show ¬ trimEmpty i = true by simp [hid])]
    rw [hreg1]
    rw [jsSetO_of_lookup [(i, Cb.wrapper s (.vstr i) (Cb.base [Act.record t]))] i
      (Cb.wrapper s (.vstr i) (Cb.base [Act.record t])) (by simp [jsLookup])]
    rw [jsSetO_jsSetO]
  · rw [hB]
    simp [hubListenerCount, hmem, jsGet_jsSetO_self]
  · rw [hB]
    have hE2 := emit_simple [] fuel
      ({ h with registry := jsSetO h.registry s [], trace := h.trace ++ (if debugOn h (.vstr s) then [Ev.logCall h.loggerTag s p1] else [])
             ++ [Ev.invoked t p1] }) s p2 hch
      (by rw [show jsGet ({ h with registry := jsSetO h.registry s [], trace := h.trace ++ (if debugOn h (.vstr s) then [Ev.logCall h.loggerTag s p1] else [])
              ++ [Ev.invoked t p1] } : Hub).registry s [] = [] from jsGet_jsSetO_self _ _ _ _]; rfl)
      (by simp; omega)
    simp only [emitF, hE2]
    rfl
  · rw [hB]
    have hE2 := emit_simple [] fuel
      ({ h with registry := jsSetO h.registry s [], trace := h.trace ++ (if debugOn h (.vstr s) then [Ev.logCall h.loggerTag s p1] else [])
             ++ [Ev.invoked t p1] }) s p2 hch
      (by rw [show jsGet ({ h with registry := jsSetO h.registry s [], trace := h.trace ++ (if debugOn h (.vstr s) then [Ev.logCall h.loggerTag s p1] else [])
              ++ [Ev.invoked t p1] } : Hub).registry s [] = [] from jsGet_jsSetO_self _ _ _ _]; rfl)
      (by simp; omega)
    simp only [emitF, hE2]
    simp [debugOn]

/-- Witness for C6: the concrete scenario of the specification —
`once("a","y",cb)` twice, then `emit("a","p1")` and `emit("a","p2")`. -/
theorem C6_once_twice_witness :
    hubListenerCount (emitF 30 (hubOnce (⟨["a"], [("a", [])], false, none, 0, []⟩ : Hub)
        (.vstr "a") (.vstr "y") (.fn (Cb.base [Act.record 4]))).1 (.vstr "a") (.vstr "p1")).1
        (.vstr "a") = .ok 0
  ∧ (emitF 30 (emitF 30 (hubOnce (⟨["a"], [("a", [])], false, none, 0, []⟩ : Hub)
        (.vstr "a") (.vstr "y") (.fn (Cb.base [Act.record 4]))).1 (.vstr "a") (.vstr "p1")).1
        (.vstr "a") (.vstr "p2")).2 = .ok false := by
  have := C6_once_twice (⟨["a"], [("a", [])], false, none, 0, []⟩ : Hub) "a" "y" 4
    (.vstr "p1") (.vstr "p2") 30 rfl rfl (by decide) (by decide)
  exact ⟨this.2.2.1, this.2.2.2.1⟩

end ClaimC6

end Nexus
